import Mathlib

/-!
# Verification of the cygnet_to_ignition heavy-analysis pipeline

Shallow embedding of the three-phase classification pipeline found in
`cyg_to_ign/Scripts/heavy_analysis/`:

* Phase 1 (`attribute_analysis.py`): column profiling and signature clustering.
* Phase 2 (`description_analysis.py`): keyword extraction, noise filtering,
  coherence scoring, equipment-type generation.
* Phase 3 (`udc_bridge_analysis.py`): UDC validation, hierarchy building,
  consolidation and confidence analysis.

Python floats are modelled by exact rationals (`ℚ`); the thresholds that the
pipeline compares against (`0.1`, `0.60`, `0.75`, `0.80`) and the quotients of
small integer cardinalities it produces are far enough apart that the
double-precision rounding of the source can never flip any of the comparisons
modelled here.  Python dictionaries are modelled by insertion-ordered
association lists, Python sets (whose iteration order the language does not
specify, and which the analysed code only ever uses for membership and
cardinality) by `Finset`.
-/

namespace CygToIgn

/-! ## Phase 3: Jaccard similarity (`_calculate_jaccard_similarity`) -/

/-- Embedding of `_calculate_jaccard_similarity` from `udc_bridge_analysis.py`
(lines 374-387): returns `0` when both sets are empty (`if not set_a and not
set_b`), otherwise `|A ∩ B| / |A ∪ B|` with a redundant guard for `union == 0`. -/
def calculate_jaccard_similarity (set_a set_b : Finset String) : ℚ :=
  if set_a = ∅ ∧ set_b = ∅ then 0
  else
    let intersection : ℕ := (set_a ∩ set_b).card
    let union : ℕ := (set_a ∪ set_b).card
    if union = 0 then 0
    else (intersection : ℚ) / (union : ℚ)

/-! ## Phase 1: discriminative score (`_profile_columns`) -/

/-- Embedding of the discriminative-score computation of `_profile_columns` in
`attribute_analysis.py` (lines 116-143).  `fill_rate` is
`filled_count / total_rows if total_rows > 0 else 0`; the score is `0` when the
fill rate is `0` or the unique count is `≤ 1`, and otherwise blends a
moderate-fill score (weight 0.4) with `min(uniqueness_ratio * 2, 1.0)`
(weight 0.6).  The surrounding code also rounds the score to four decimals for
display; the rounding is presentational and not modelled. -/
def discriminativeScore (total_rows filled_count unique_count : ℕ) : ℚ :=
  let fill_rate : ℚ := if 0 < total_rows then (filled_count : ℚ) / (total_rows : ℚ) else 0
  if fill_rate = 0 then 0
  else if unique_count ≤ 1 then 0
  else
    let uniqueness_ratio : ℚ :=
      if 0 < filled_count then (unique_count : ℚ) / (filled_count : ℚ) else 0
    let fill_score : ℚ := 1 - |fill_rate - 0.5| * 2
    let unique_score : ℚ := min (uniqueness_ratio * 2) 1
    fill_score * 0.4 + unique_score * 0.6

/-- Refinement comparison definition, written from the words of claim C4:
same zero cases, but the non-zero branch weighs the raw uniqueness ratio
`distinct / filled` capped at `1.0` (without the factor `2` that the source
applies before capping). -/
def discriminativeScoreClaimed (total_rows filled_count unique_count : ℕ) : ℚ :=
  let fill_rate : ℚ := if 0 < total_rows then (filled_count : ℚ) / (total_rows : ℚ) else 0
  if fill_rate = 0 then 0
  else if unique_count ≤ 1 then 0
  else
    let uniqueness_ratio : ℚ :=
      if 0 < filled_count then (unique_count : ℚ) / (filled_count : ℚ) else 0
    let fill_score : ℚ := 1 - |fill_rate - 0.5| * 2
    let unique_score : ℚ := min uniqueness_ratio 1
    fill_score * 0.4 + unique_score * 0.6

/-! ## Phase 3 data model (`udc_bridge_analysis.py`) -/

/-- One row of `merged_validation_dataset.csv` as consumed by Phase 3: only the
`fac_id` and `pnt_uniformdatacode` columns are read; either may be missing
(pandas NaN), modelled by `Option`. -/
structure JoinRow where
  fac_id : Option String
  pnt_uniformdatacode : Option String
deriving DecidableEq

/-- An `assumed_equipment_types` entry produced by Phase 2
(`_generate_equipment_types` in `description_analysis.py`, lines 379-392).
The Phase-2 dict additionally carries `percent_of_total`,
`facility_groups_matched`, `key_attributes`, `sample_facilities` and
`sample_descriptions`, none of which Phase 3 reads; they are omitted here.
Note that the Phase-2 dict key for the confidence tier is `"confidence"`,
mirrored by the `confidence` field; no `confidence_level` key exists. -/
structure EquipmentType where
  equipment_type_id : Nat
  suggested_name : String
  keywords : List String
  facility_count : Nat
  facility_ids : List String
  confidence : String
  coherence_score : ℚ
deriving DecidableEq

/-- Python `dict.get key default` on the string-valued keys of a Phase-2
equipment-type dict.  The string-valued keys Phase 2 sets are
`"suggested_name"` and `"confidence"`; `get` on any other key (in particular
`"confidence_level"`, which `_analyze_confidence_levels` asks for) returns the
supplied default. -/
def EquipmentType.dictGetStr (t : EquipmentType) (key default : String) : String :=
  if key = "suggested_name" then t.suggested_name
  else if key = "confidence" then t.confidence
  else default

/-- Per-UDC statistics stored in `udc_coverage`.  The dict key `class` is a
Lean keyword, so the field is named `udcClass`.  The source stores
`coverage_pct` rounded to two decimals for display but computes the class from
the unrounded value; the unrounded value is modelled. -/
structure UdcStats where
  count : Nat
  tag_count : Nat
  coverage_pct : ℚ
  udcClass : String
deriving DecidableEq

/-- A UDCCoverageProfile: one entry of `equipment_udc_profiles` as built by
`_validate_equipment_with_udcs`.  `udc_coverage` is an insertion-ordered dict
(association list). -/
structure UdcProfile where
  equipment_type_id : Nat
  suggested_name : String
  facility_count : Nat
  facility_ids : List String
  total_tags : Nat
  distinct_udcs : Nat
  udc_coverage : List (String × UdcStats)
  warning : Option String
deriving DecidableEq

/-! ## Ordered-dict helpers -/

/-- Mutating update of a Python (insertion-ordered) dict entry, as performed by
`defaultdict` access: if the key is present its value is transformed in place,
otherwise the pair is created from the default and appended at the end. -/
def updateAssoc {κ β : Type} [DecidableEq κ] (l : List (κ × β)) (k : κ) (f : β → β) (dflt : β) :
    List (κ × β) :=
  match l with
  | [] => [(k, f dflt)]
  | (k2, v) :: rest =>
      if k2 = k then (k2, f v) :: rest else (k2, v) :: updateAssoc rest k f dflt

/-- Python dict assignment `d[k] = v`: overwrite in place when the key exists,
append at the end otherwise. -/
def setAssoc {κ β : Type} [DecidableEq κ] (l : List (κ × β)) (k : κ) (v : β) :
    List (κ × β) :=
  match l with
  | [] => [(k, v)]
  | (k2, w) :: rest => if k2 = k then (k2, v) :: rest else (k2, w) :: setAssoc rest k v

/-- Python dict lookup `d[k]` returning `none` when the key is absent. -/
def getAssoc? {κ β : Type} [DecidableEq κ] (l : List (κ × β)) (k : κ) : Option β :=
  (l.find? (fun p => p.1 = k)).map Prod.snd

/-- Stable insertion for a descending sort: the element is placed after every
element with a strictly larger key and before every element with a smaller or
equal key, so that equal keys keep their original relative order - matching
the stability of Python's `sorted` / `Counter.most_common`. -/
def insertDescBy {α β : Type} [LinearOrder β] (key : α → β) (x : α) : List α → List α
  | [] => [x]
  | y :: ys => if key x < key y then y :: insertDescBy key x ys else x :: y :: ys

/-- Stable sort by key, descending: models `sorted(l, key=..., reverse=True)`
of Python (which is stable). -/
def sortDescBy {α β : Type} [LinearOrder β] (key : α → β) (l : List α) : List α :=
  l.foldr (insertDescBy key) []

/-- Arithmetic mean of a list of rationals (`np.mean`). -/
def listMean (l : List ℚ) : ℚ := l.sum / (l.length : ℚ)

/-! ## Phase 3 step 1: UDC validation (`_validate_equipment_with_udcs`) -/

/-- Accumulation of the `udc_stats` defaultdict over the filtered join rows,
in row order: rows whose UDC or facility id is NaN are skipped; otherwise the
facility id is added to the distinct-facility set of the UDC and the tag count
is incremented. -/
def accumulateUdcStats (rows : List JoinRow) : List (String × (Finset String × Nat)) :=
  rows.foldl (fun acc r =>
    match r.pnt_uniformdatacode, r.fac_id with
    | some udc, some fid => updateAssoc acc udc (fun p => (insert fid p.1, p.2 + 1)) (∅, 0)
    | _, _ => acc) []

/-- Embedding of `_validate_equipment_with_udcs` (`udc_bridge_analysis.py`,
lines 182-281).  Types with an empty `facility_ids` list are skipped
(`continue`); types whose join-table restriction is empty are emitted with a
warning and `distinct_udcs = 0`; otherwise coverage percentages and tiers are
computed per UDC and the coverage dict is stably sorted by coverage
descending. -/
def validate_equipment_with_udcs (merged_df : List JoinRow)
    (equipment_types : List EquipmentType) (output_detail : String) :
    List UdcProfile :=
  equipment_types.flatMap (fun eq_type =>
    if eq_type.facility_ids = [] then []
    else
      let eq_tags := merged_df.filter (fun r =>
        match r.fac_id with
        | some fid => decide (fid ∈ eq_type.facility_ids)
        | none => false)
      if eq_tags = [] then
        [{ equipment_type_id := eq_type.equipment_type_id
           suggested_name := eq_type.suggested_name
           facility_count := eq_type.facility_ids.length
           facility_ids :=
             if output_detail = "full" then eq_type.facility_ids
             else eq_type.facility_ids.take 10
           total_tags := 0
           distinct_udcs := 0
           udc_coverage := []
           warning := some "No PNT tags found for these facilities" }]
      else
        let total_facilities := eq_type.facility_ids.length
        let udc_stats := accumulateUdcStats eq_tags
        let udc_coverage := udc_stats.map (fun p =>
          let coverage_pct : ℚ := ((p.2.1.card : ℚ) / (total_facilities : ℚ)) * 100
          let udc_class :=
            if coverage_pct ≥ 80 then "core"
            else if coverage_pct ≥ 50 then "common"
            else "optional"
          (p.1, { count := p.2.1.card
                  tag_count := p.2.2
                  coverage_pct := coverage_pct
                  udcClass := udc_class : UdcStats }))
        let udc_coverage := sortDescBy (fun q => q.2.coverage_pct) udc_coverage
        [{ equipment_type_id := eq_type.equipment_type_id
           suggested_name := eq_type.suggested_name
           facility_count := total_facilities
           facility_ids :=
             if output_detail = "full" then eq_type.facility_ids
             else eq_type.facility_ids.take 10
           total_tags := eq_tags.length
           distinct_udcs := udc_coverage.length
           udc_coverage := udc_coverage
           warning := none }])

/-! ## Phase 3 step 2: hierarchy discovery (`_build_hierarchy_tree`) -/

/-- A `parent_child_relationships` entry.  The source stores the similarity
rounded to three decimals and materializes `shared_udcs` as a list in
unspecified Python-set order; the exact similarity and the set itself are
modelled. -/
structure HierarchyRelationship where
  parent_id : Nat
  child_id : Nat
  similarity : ℚ
  shared_udcs : Finset String
  shared_udc_count : Nat
deriving DecidableEq

/-- Result of `_build_hierarchy_tree`.  The `similarity_matrix` field (emitted
only for `output_detail == "full"` and purely informational) is not
modelled. -/
structure EquipmentHierarchy where
  parent_child_relationships : List HierarchyRelationship
  root_nodes : List Nat
  isolated_nodes : List Nat
  total_relationships : Nat
deriving DecidableEq

/-- The set of core and common UDCs of a profile: the set comprehension over
`udc_coverage` keeping entries whose class is `"core"` or `"common"`. -/
def coreCommonUdcSet (p : UdcProfile) : Finset String :=
  ((p.udc_coverage.filter (fun q =>
      q.2.udcClass = "core" ∨ q.2.udcClass = "common")).map Prod.fst).toFinset

/-- The set of all UDC keys of a profile (`set(udc_coverage.keys())`), used by
consolidation. -/
def allUdcSet (p : UdcProfile) : Finset String :=
  (p.udc_coverage.map Prod.fst).toFinset

/-- First profile with the given equipment-type id (`next(p for p in
udc_profiles if ...)`). -/
def lookupProfile (udc_profiles : List UdcProfile) (eq_id : Nat) : Option UdcProfile :=
  udc_profiles.find? (fun p => p.equipment_type_id = eq_id)

/-- First equipment type with the given id (`next(t for t in equipment_types
if ...)`). -/
def lookupType (equipment_types : List EquipmentType) (eq_id : Nat) : Option EquipmentType :=
  equipment_types.find? (fun t => t.equipment_type_id = eq_id)

/-- One iteration of the inner loop of `_build_hierarchy_tree` (lines
322-356): for an ordered pair of ids, skip equal ids, compute the Jaccard
similarity of the core+common sets, and when it exceeds `0.60` emit one
relationship whose parent is the side with the strictly larger facility count
(ties make the second id the parent).  The `next(...)` lookups always succeed
when the ids are drawn from the profiles, which is the only way the source
calls this; a failed lookup (which would raise `StopIteration`) is modelled as
emitting nothing. -/
def hierarchyEdge (udc_profiles : List UdcProfile)
    (eq_udc_sets : List (Nat × Finset String)) (eq_a eq_b : Nat) :
    List HierarchyRelationship :=
  if eq_a = eq_b then []
  else
    let set_a := (getAssoc? eq_udc_sets eq_a).getD ∅
    let set_b := (getAssoc? eq_udc_sets eq_b).getD ∅
    let jaccard := calculate_jaccard_similarity set_a set_b
    if jaccard > 0.60 then
      match lookupProfile udc_profiles eq_a, lookupProfile udc_profiles eq_b with
      | some profile_a, some profile_b =>
        let pc : Nat × Nat :=
          if profile_a.facility_count > profile_b.facility_count then (eq_a, eq_b)
          else (eq_b, eq_a)
        let shared := set_a ∩ set_b
        [{ parent_id := pc.1
           child_id := pc.2
           similarity := jaccard
           shared_udcs := shared
           shared_udc_count := shared.card }]
      | _, _ => []
    else []

/-- The `eq_udc_sets` dict of both the hierarchy and the consolidation step:
dict assignment of the per-profile UDC set keyed by equipment-type id, over
the profiles in order (a duplicated id overwrites, as in Python). -/
def buildEqUdcSets (f : UdcProfile → Finset String) (udc_profiles : List UdcProfile) :
    List (Nat × Finset String) :=
  udc_profiles.foldl (fun d p => setAssoc d p.equipment_type_id (f p)) []

/-- Embedding of `_build_hierarchy_tree` (`udc_bridge_analysis.py`, lines
288-371).  The relationship list accumulates over ALL ordered pairs of
distinct ids (the inner loop runs over the full id list, not a triangular
slice).  Roots are connected ids that never appear as a child; isolated ids
appear in no relationship.  The unused `equipment_types` and `output_detail`
parameters of the source only affect the display-only `similarity_matrix`
and are dropped. -/
def build_hierarchy_tree (udc_profiles : List UdcProfile) : EquipmentHierarchy :=
  let eq_udc_sets := buildEqUdcSets coreCommonUdcSet udc_profiles
  let eq_ids := eq_udc_sets.map Prod.fst
  let relationships := eq_ids.flatMap (fun eq_a =>
    eq_ids.flatMap (fun eq_b => hierarchyEdge udc_profiles eq_udc_sets eq_a eq_b))
  let all_children := relationships.map (·.child_id)
  let all_connected := relationships.map (·.parent_id) ++ all_children
  let root_nodes := eq_ids.filter (fun i =>
    decide (i ∉ all_children) && decide (i ∈ all_connected))
  let isolated_nodes := eq_ids.filter (fun i => decide (i ∉ all_connected))
  { parent_child_relationships := relationships
    root_nodes := root_nodes
    isolated_nodes := isolated_nodes
    total_relationships := relationships.length }

/-! ## Phase 3 step 3: consolidation (`_consolidate_groups`) -/

/-- A `merged_groups` entry.  The display-only `merge_reason` string (a
formatted percentage) is omitted. -/
structure MergedGroup where
  new_group_id : Nat
  new_group_name : String
  merged_from : List Nat
  total_facilities : Nat
  combined_udcs : Nat
deriving DecidableEq

/-- Result of `_consolidate_groups`; the three `consolidation_summary` fields
are inlined as `before`, `after`, `merged`. -/
structure ConsolidationResult where
  merged_groups : List MergedGroup
  unchanged_groups : List Nat
  before : Nat
  after : Nat
  merged : Nat
deriving DecidableEq

/-- Inner loop of `_consolidate_groups`: find the first id in the remaining
slice that is not yet merged and whose all-tier UDC set has Jaccard similarity
`≥ merge_threshold` with the current set. -/
def findMergePartner (eq_udc_sets : List (Nat × Finset String)) (merged_ids : Finset Nat)
    (merge_threshold : ℚ) (set_a : Finset String) (rest : List Nat) : Option Nat :=
  rest.find? (fun eq_b =>
    decide (eq_b ∉ merged_ids) &&
    decide (calculate_jaccard_similarity set_a ((getAssoc? eq_udc_sets eq_b).getD ∅)
      ≥ merge_threshold))

/-- The merged-group record built when `eq_a` and `eq_b` merge (lines
449-462 of the source).  The `next(...)` lookups always succeed when the ids
come from the profiles and every profile id has a matching equipment type,
which is how the pipeline calls this; a failed lookup (a `StopIteration` in
Python) is modelled as `none`. -/
def mkMergedGroup (udc_profiles : List UdcProfile) (equipment_types : List EquipmentType)
    (eq_udc_sets : List (Nat × Finset String)) (eq_a eq_b : Nat) : Option MergedGroup :=
  match lookupProfile udc_profiles eq_a, lookupProfile udc_profiles eq_b,
        lookupType equipment_types eq_a, lookupType equipment_types eq_b with
  | some profile_a, some profile_b, some type_a, some type_b =>
    some { new_group_id := eq_a
           new_group_name := type_a.suggested_name ++ " + " ++ type_b.suggested_name
           merged_from := [eq_a, eq_b]
           total_facilities := profile_a.facility_count + profile_b.facility_count
           combined_udcs :=
             (((getAssoc? eq_udc_sets eq_a).getD ∅) ∪ ((getAssoc? eq_udc_sets eq_b).getD ∅)).card }
  | _, _, _, _ => none

/-- The greedy single-pass scan of `_consolidate_groups` (lines 432-466):
walk the id list in order, skipping already-merged ids; on finding a partner,
emit one merged group, mark both ids merged, and `break` to the next outer id.
Returns the merged groups and the final `merged_ids` set. -/
def consolidateScan (udc_profiles : List UdcProfile) (equipment_types : List EquipmentType)
    (eq_udc_sets : List (Nat × Finset String)) (merge_threshold : ℚ) :
    List Nat → Finset Nat → List MergedGroup × Finset Nat
  | [], merged_ids => ([], merged_ids)
  | eq_a :: rest, merged_ids =>
    if eq_a ∈ merged_ids then
      consolidateScan udc_profiles equipment_types eq_udc_sets merge_threshold rest merged_ids
    else
      let set_a := (getAssoc? eq_udc_sets eq_a).getD ∅
      match findMergePartner eq_udc_sets merged_ids merge_threshold set_a rest with
      | none =>
          consolidateScan udc_profiles equipment_types eq_udc_sets merge_threshold rest merged_ids
      | some eq_b =>
        match mkMergedGroup udc_profiles equipment_types eq_udc_sets eq_a eq_b with
        | some mg =>
          let res := consolidateScan udc_profiles equipment_types eq_udc_sets merge_threshold
            rest (insert eq_a (insert eq_b merged_ids))
          (mg :: res.1, res.2)
        | none =>
          consolidateScan udc_profiles equipment_types eq_udc_sets merge_threshold rest merged_ids

/-- Embedding of `_consolidate_groups` (`udc_bridge_analysis.py`, lines
394-478): all-tier UDC sets, a single greedy pass with threshold
`merge_threshold` (the pipeline passes `0.80`), unchanged groups are the ids
never merged, and the summary counts types before and after. -/
def consolidate_groups (udc_profiles : List UdcProfile)
    (equipment_types : List EquipmentType) (merge_threshold : ℚ) : ConsolidationResult :=
  let eq_udc_sets := buildEqUdcSets allUdcSet udc_profiles
  let eq_ids := eq_udc_sets.map Prod.fst
  let scan := consolidateScan udc_profiles equipment_types eq_udc_sets merge_threshold eq_ids ∅
  let unchanged_groups := eq_ids.filter (fun i => decide (i ∉ scan.2))
  { merged_groups := scan.1
    unchanged_groups := unchanged_groups
    before := equipment_types.length
    after := unchanged_groups.length + scan.1.length
    merged := scan.2.card }

/-! ## Phase 3 step 4: confidence analysis (`_analyze_confidence_levels`) -/

/-- One of the five `equipment_types` sample entries of a confidence bucket. -/
structure ConfidenceMemberEntry where
  id : Nat
  name : String
  distinct_udcs : Nat
  facilities : Nat
deriving DecidableEq

/-- Metrics of a non-empty confidence bucket.  The source rounds the two
averages to two decimals for display; the exact values are modelled. -/
structure ConfidenceLevelDetails where
  avg_udc_count : ℚ
  min_udc_count : Nat
  max_udc_count : Nat
  avg_core_udc_coverage : ℚ
  equipment_types : List ConfidenceMemberEntry
deriving DecidableEq

/-- A confidence bucket report: an empty bucket is reported as a bare
`{"count": 0}` dict, modelled by `details = none`. -/
structure ConfidenceLevelStats where
  count : Nat
  details : Option ConfidenceLevelDetails
deriving DecidableEq

/-- Result of `_analyze_confidence_levels` (the static
`recommendations_by_level` strings are omitted). -/
structure ConfidenceAnalysis where
  high_confidence : ConfidenceLevelStats
  medium_confidence : ConfidenceLevelStats
  low_confidence : ConfidenceLevelStats
deriving DecidableEq

/-- The profiles landing in the bucket of a given level: a profile is
considered when some equipment type has its id (`next(..., None)`; otherwise
`continue`), and lands in the bucket equal to
`eq_type.get("confidence_level", "unknown")`.  Phase 2 sets the key
`"confidence"`, not `"confidence_level"`, so this lookup always yields
`"unknown"` on pipeline data. -/
def confidenceBucket (udc_profiles : List UdcProfile)
    (equipment_types : List EquipmentType) (level : String) : List UdcProfile :=
  udc_profiles.filter (fun p =>
    match lookupType equipment_types p.equipment_type_id with
    | none => false
    | some t => t.dictGetStr "confidence_level" "unknown" = level)

/-- Per-bucket metrics (lines 525-559 of the source): count,
average/min/max of `distinct_udcs`, and the mean over profiles that have core
UDCs of the per-profile mean core coverage; up to five member entries are
sampled.  `min(...) if udc_counts else 0` is modelled by `getD 0`. -/
def confidenceLevelStats (equipment_types : List EquipmentType)
    (bucket : List UdcProfile) : ConfidenceLevelStats :=
  if bucket = [] then { count := 0, details := none }
  else
    let udc_counts : List Nat := bucket.map (·.distinct_udcs)
    let core_coverages := bucket.filterMap (fun p =>
      let core_udcs := (p.udc_coverage.filter (fun q => q.2.udcClass = "core")).map
        (fun q => q.2.coverage_pct)
      if core_udcs = [] then none else some (listMean core_udcs))
    { count := bucket.length
      details := some {
        avg_udc_count := ((udc_counts.map (fun n => (n : ℚ))).sum) / (udc_counts.length : ℚ)
        min_udc_count := udc_counts.min?.getD 0
        max_udc_count := udc_counts.max?.getD 0
        avg_core_udc_coverage := if core_coverages = [] then 0 else listMean core_coverages
        equipment_types := (bucket.take 5).filterMap (fun p =>
          (lookupType equipment_types p.equipment_type_id).map (fun t =>
            { id := p.equipment_type_id
              name := t.suggested_name
              distinct_udcs := p.distinct_udcs
              facilities := p.facility_count : ConfidenceMemberEntry })) } }

/-- Embedding of `_analyze_confidence_levels` (`udc_bridge_analysis.py`,
lines 485-570).  The `consolidated` parameter of the source is never read and
is dropped. -/
def analyze_confidence_levels (udc_profiles : List UdcProfile)
    (equipment_types : List EquipmentType) : ConfidenceAnalysis :=
  { high_confidence :=
      confidenceLevelStats equipment_types (confidenceBucket udc_profiles equipment_types "high")
    medium_confidence :=
      confidenceLevelStats equipment_types (confidenceBucket udc_profiles equipment_types "medium")
    low_confidence :=
      confidenceLevelStats equipment_types (confidenceBucket udc_profiles equipment_types "low") }

/-! ## Phase 3 entry point (`analyze_udc_bridge`) -/

/-- The success payload of Phase 3.  `analysis_timestamp`,
`hierarchy_tree_path` (a filesystem side effect whose failure is reported in
the returned path string without invalidating the rest) and the
`recommendations` strings are presentation or IO concerns and are not
modelled. -/
structure Phase3Results where
  total_equipment_types : Nat
  total_tags_analyzed : Nat
  equipment_udc_profiles : List UdcProfile
  equipment_hierarchy : EquipmentHierarchy
  consolidated_groups : ConsolidationResult
  confidence_analysis : ConfidenceAnalysis
deriving DecidableEq

/-- Embedding of `analyze_udc_bridge` (`udc_bridge_analysis.py`, lines
26-122).  The merged dataset argument is `none` when the file does not exist
or fails to load (the source returns an error dict in both cases); an empty
equipment-type list also produces an error dict.  Error dicts are modelled as
`Except.error` carrying the human-readable message. -/
def analyze_udc_bridge (merged_dataset : Option (List JoinRow))
    (assumed_equipment_types : List EquipmentType) (output_detail : String) :
    Except String Phase3Results :=
  match merged_dataset with
  | none => .error "Merged dataset not found"
  | some merged_df =>
    if assumed_equipment_types = [] then
      .error "No equipment types found in analysis_descriptions"
    else
      let udc_profiles :=
        validate_equipment_with_udcs merged_df assumed_equipment_types output_detail
      .ok { total_equipment_types := assumed_equipment_types.length
            total_tags_analyzed := merged_df.length
            equipment_udc_profiles := udc_profiles
            equipment_hierarchy := build_hierarchy_tree udc_profiles
            consolidated_groups :=
              consolidate_groups udc_profiles assumed_equipment_types (80/100)
            confidence_analysis :=
              analyze_confidence_levels udc_profiles assumed_equipment_types }

/-! ## Python rounding

`round(x, n)` in Python rounds half to even.  On floats the tie cases are
decided on the binary representation; no claim below depends on a value this
close to a tie, so the exact rational ties-to-even rounding is used. -/

/-- Round a rational to the nearest integer, ties to even. -/
def roundHalfEven (y : ℚ) : ℤ :=
  let f := ⌊y⌋
  let r := y - (f : ℚ)
  if r < 1/2 then f
  else if 1/2 < r then f + 1
  else if f % 2 = 0 then f else f + 1

/-- Python `round(x, ndigits)` on exact rationals. -/
def pyRound (ndigits : Nat) (x : ℚ) : ℚ :=
  let m : ℚ := (10 : ℚ) ^ ndigits
  ((roundHalfEven (x * m) : ℚ)) / m

/-! ## Facility table model (shared by Phases 1 and 2)

A pandas DataFrame loaded from the FAC csv: named columns, rows addressed by
their positional index (the default `RangeIndex`), and cells that are either a
string value or NaN (`none`).  Empty csv cells load as NaN. -/

/-- One facility row: column name to optional cell value. -/
structure FacRecord where
  fields : List (String × Option String)
deriving DecidableEq

/-- Cell access: NaN (`none`) both for a stored NaN and for an absent column. -/
def FacRecord.cell (r : FacRecord) (col : String) : Option String :=
  match getAssoc? r.fields col with
  | some v => v
  | none => none

/-- The facility DataFrame. -/
structure FacTable where
  columns : List String
  rows : List FacRecord
deriving DecidableEq

/-- The per-facility display record built by
`_discover_attribute_signatures` (id, desc truncated to 100 characters,
type), with the fallbacks of the source: `str(...)` of a NaN cell is the
string `"nan"`, a missing `id` column falls back to the stringified row
index, missing `desc`/`type` columns to `"N/A"`. -/
structure FacilityInfo where
  id : String
  desc : String
  type : String
deriving DecidableEq

/-! ## Phase 1: signature discovery (`_discover_attribute_signatures`) -/

/-- The boolean presence vector of one row over the focus columns
(`fac_df[focus_cols].notna()`). -/
def signaturePresenceRow (focus_cols : List String) (r : FacRecord) : List Bool :=
  focus_cols.map (fun c => (r.cell c).isSome)

/-- Build the `facilities` entry for a row index (lines 282-290 of
`attribute_analysis.py`). -/
def facInfoOfIdx (fac_df : FacTable) (idx : Nat) : FacilityInfo :=
  let r := (fac_df.rows.get? idx).getD ⟨[]⟩
  let strOf : Option String → String := fun c => match c with
    | some v => v
    | none => "nan"
  { id := if "id" ∈ fac_df.columns then strOf (r.cell "id") else toString idx
    desc := (if "desc" ∈ fac_df.columns then strOf (r.cell "desc") else "N/A").take 100
    type := if "type" ∈ fac_df.columns then strOf (r.cell "type") else "N/A" }

/-- One `top_patterns` entry of `_discover_attribute_signatures`.  The
`signature_id` (a Python `hash`) and `sample_facilities` (a prefix of
`facilities`) are display-only and omitted; `member_indices` records the row
indices the source materializes 1:1 as the `facilities` list. -/
structure SignaturePattern where
  facility_count : Nat
  percent_of_total : ℚ
  filled_columns : List String
  empty_columns : List String
  column_fill_count : Nat
  facilities : List FacilityInfo
  member_indices : List Nat
deriving DecidableEq

/-- Result of `_discover_attribute_signatures`. -/
structure AttributeSignatures where
  total_unique_signatures : Nat
  columns_analyzed : List String
  top_patterns : List SignaturePattern
deriving DecidableEq

/-- The signature list of `_discover_attribute_signatures`: one (presence
vector, row index) pair per row. -/
def signatureList (fac_df : FacTable) (focus_cols : List String) :
    List (List Bool × Nat) :=
  fac_df.rows.enum.map (fun p => (signaturePresenceRow focus_cols p.2, p.1))

/-- The signature buckets: row indices grouped by identical presence vector
(dict insertion order: first occurrence of each vector). -/
def signatureGroups (fac_df : FacTable) (focus_cols : List String) :
    List (List Bool × List Nat) :=
  (signatureList fac_df focus_cols).foldl
    (fun acc p => updateAssoc acc p.1 (fun l => l ++ [p.2]) []) []

/-- One `top_patterns` entry built from a signature bucket. -/
def patternOfGroup (fac_df : FacTable) (focus_cols : List String)
    (g : List Bool × List Nat) : SignaturePattern :=
  let filled_cols := ((focus_cols.zip g.1).filter (fun q => q.2 = true)).map Prod.fst
  let empty_cols := ((focus_cols.zip g.1).filter (fun q => q.2 = false)).map Prod.fst
  { facility_count := g.2.length
    percent_of_total := pyRound 2 ((g.2.length : ℚ) / (fac_df.rows.length : ℚ) * 100)
    filled_columns := filled_cols
    empty_columns := empty_cols
    column_fill_count := filled_cols.length
    facilities := g.2.map (facInfoOfIdx fac_df)
    member_indices := g.2 }

/-- Embedding of `_discover_attribute_signatures` (`attribute_analysis.py`,
lines 242-307): focus on the first `min(20, len(key_attrs))` key columns,
bucket row indices by identical presence vector (dict insertion order: first
occurrence), sort the buckets stably by facility count descending, and keep
only the first 50 patterns. -/
def discover_attribute_signatures (fac_df : FacTable) (key_attr_columns : List String) :
    AttributeSignatures :=
  let top_n := min 20 key_attr_columns.length
  let focus_cols := key_attr_columns.take top_n
  let signature_groups := signatureGroups fac_df focus_cols
  let sorted_groups := (sortDescBy (fun g => g.2.length) signature_groups).take 50
  { total_unique_signatures := signature_groups.length
    columns_analyzed := focus_cols
    top_patterns := sorted_groups.map (patternOfGroup fac_df focus_cols) }

/-- A group produced by `_group_by_signatures` (one entry of
`facility_groups["groups"]`); `sample_facilities` (a prefix of `facilities`)
is display-only and omitted. -/
structure Phase1Group where
  group_id : Nat
  facility_count : Nat
  percent_of_total : ℚ
  key_filled_attributes : List String
  attribute_count : Nat
  facilities : List FacilityInfo
  member_indices : List Nat
deriving DecidableEq

/-- Result of `_group_by_signatures`. -/
structure FacilityGroupsResult where
  total_groups : Nat
  groups : List Phase1Group
  coverage : ℚ
deriving DecidableEq

/-- Embedding of `_group_by_signatures` (`attribute_analysis.py`, lines
314-345): every discovered pattern becomes a group, numbered from 1 in
pattern order; no further cap is applied here. -/
def group_by_signatures (signatures : AttributeSignatures) : FacilityGroupsResult :=
  let groups := signatures.top_patterns.enum.map (fun p =>
    { group_id := p.1 + 1
      facility_count := p.2.facility_count
      percent_of_total := p.2.percent_of_total
      key_filled_attributes := p.2.filled_columns.take 10
      attribute_count := p.2.column_fill_count
      facilities := p.2.facilities
      member_indices := p.2.member_indices : Phase1Group })
  { total_groups := groups.length
    groups := groups
    coverage := (groups.map (fun g => g.percent_of_total)).sum }

/-- Phase 1 signature clustering as consumed by the partition claim: discovery
followed by grouping. -/
def facilityClusters (fac_df : FacTable) (key_attr_columns : List String) : List Phase1Group :=
  (group_by_signatures (discover_attribute_signatures fac_df key_attr_columns)).groups

/-! ## Phase 2: tokenizer (`_tokenize_and_count`)

The tokenizer splits on `[_\s\-]+`, then runs
`re.findall(r'[A-Z]?[a-z]+|[A-Z]+(?=[A-Z][a-z]|\b)|[0-9]+', segment)` on each
segment, lower-cases, and filters stop words, one-character and numeric-only
tokens, and two-character tokens outside a small allow-list.  The regex
engine's leftmost-first alternation with backtracking is modelled exactly on
ASCII character classes (the input data is ASCII; Python's `[A-Z]`, `[a-z]`,
`[0-9]` are ASCII ranges, and `\w` for the `\b` boundary is modelled as the
ASCII word characters). -/

/-- ASCII uppercase letter, the regex class `[A-Z]`. -/
def isUpperAZ (c : Char) : Bool := 'A' ≤ c && c ≤ 'Z'

/-- ASCII lowercase letter, the regex class `[a-z]`. -/
def isLowerAZ (c : Char) : Bool := 'a' ≤ c && c ≤ 'z'

/-- ASCII digit, the regex class `[0-9]`. -/
def isDigit09 (c : Char) : Bool := '0' ≤ c && c ≤ '9'

/-- A regex word character (for the `\b` boundary). -/
def isWordChar (c : Char) : Bool := isUpperAZ c || isLowerAZ c || isDigit09 c || c = '_'

/-- A character matched by the split pattern `[_\s\-]+`. -/
def isSepChar (c : Char) : Bool :=
  c = '_' || c = ' ' || c = '\t' || c = '\n' || c = '\r' || c = '\x0b' || c = '\x0c' || c = '-'

/-- Lower-case an ASCII letter (`str.lower` on the ASCII data at hand). -/
def toLowerAZ (c : Char) : Char :=
  if isUpperAZ c then Char.ofNat (c.toNat + 32) else c

/-- Upper-case an ASCII letter. -/
def toUpperAZ (c : Char) : Char :=
  if isLowerAZ c then Char.ofNat (c.toNat - 32) else c

/-- Splitting on runs of separator characters (`re.split(r'[_\s\-]+', text)`;
the empty segments Python produces at the boundaries match nothing in the
second pass, so only the non-empty segments are kept). -/
def splitSegAux : List Char → List Char → List (List Char)
  | [], acc => if acc.isEmpty then [] else [acc.reverse]
  | c :: cs, acc =>
    if isSepChar c then
      if acc.isEmpty then splitSegAux cs [] else acc.reverse :: splitSegAux cs []
    else splitSegAux cs (c :: acc)

/-- Split a text into its maximal separator-free segments. -/
def splitSegments (s : List Char) : List (List Char) := splitSegAux s []

/-- The alternative `[A-Z]?[a-z]+` at the current position: an optional
uppercase letter followed by a maximal non-empty lowercase run (the greedy
optional backtracks to empty when no lowercase follows the uppercase). -/
def matchA : List Char → Option (List Char × List Char)
  | [] => none
  | c :: rest =>
    if isUpperAZ c then
      let low := rest.takeWhile isLowerAZ
      if low.isEmpty then none else some (c :: low, rest.dropWhile isLowerAZ)
    else if isLowerAZ c then
      some (c :: rest.takeWhile isLowerAZ, rest.dropWhile isLowerAZ)
    else none

/-- The lookahead `(?=[A-Z][a-z]|\b)` applied to the suffix after the
uppercase run: an uppercase-lowercase pair, or a word boundary (the previous
character is always an uppercase letter here, so the boundary holds exactly
when the next character is absent or not a word character). -/
def lookB : List Char → Bool
  | [] => true
  | [a] => !(isWordChar a)
  | a :: b :: _ => (isUpperAZ a && isLowerAZ b) || !(isWordChar a)

/-- Backtracking for `[A-Z]+(?=...)`: try the maximal uppercase run first,
then shorter prefixes, moving one trailing uppercase letter back into the
suffix at a time.  The first argument is the reversed run still claimed. -/
def matchBGo : List Char → List Char → Option (List Char × List Char)
  | [], _ => none
  | c :: rs, rest =>
    if lookB rest then some ((c :: rs).reverse, rest) else matchBGo rs (c :: rest)

/-- The alternative `[A-Z]+(?=[A-Z][a-z]|\b)`. -/
def matchB (cs : List Char) : Option (List Char × List Char) :=
  let ups := cs.takeWhile isUpperAZ
  if ups.isEmpty then none else matchBGo ups.reverse (cs.dropWhile isUpperAZ)

/-- The alternative `[0-9]+`: a maximal non-empty digit run. -/
def matchC : List Char → Option (List Char × List Char)
  | [] => none
  | c :: rest =>
    if isDigit09 c then some (c :: rest.takeWhile isDigit09, rest.dropWhile isDigit09)
    else none

/-- The `re.findall` scan: at each position try the three alternatives in
order; on a match emit it and continue after it, otherwise advance one
character.  Every match is non-empty, so a fuel of the input length is enough
for the scan to run to completion. -/
def findallTokens : Nat → List Char → List (List Char)
  | 0, _ => []
  | _ + 1, [] => []
  | fuel + 1, c :: rest =>
    match matchA (c :: rest) with
    | some p => p.1 :: findallTokens fuel p.2
    | none =>
      match matchB (c :: rest) with
      | some p => p.1 :: findallTokens fuel p.2
      | none =>
        match matchC (c :: rest) with
        | some p => p.1 :: findallTokens fuel p.2
        | none => findallTokens fuel rest

/-- All matches of the token regex in a segment. -/
def pyFindall (s : List Char) : List (List Char) := findallTokens s.length s

/-- The universal stop-word list of `_tokenize_and_count`. -/
def stop_words : List String :=
  ["the", "a", "an", "and", "or", "but", "in", "on", "at", "to", "for",
   "of", "with", "by", "from", "as", "is", "was", "are", "were", "been",
   "be", "have", "has", "had", "do", "does", "did", "will", "would",
   "should", "could", "may", "might", "must", "can", "this", "that",
   "these", "those", "i", "you", "he", "she", "it", "we", "they",
   "not", "no", "yes", "n", "na", "nan", "none"]

/-- The words of one text that `_tokenize_and_count` counts: split into
segments, extract sub-words with the token regex, lower-case, and drop stop
words, words of length at most 1, numeric-only words and two-character words
other than `wt`/`sd`/`hp`/`lp`. -/
def processedWords (text : String) : List String :=
  let segments := splitSegments text.data
  let all_words := segments.flatMap pyFindall
  all_words.filterMap (fun wchars =>
    let word : String := ⟨wchars.map toLowerAZ⟩
    if word ∈ stop_words then none
    else if word.length ≤ 1 then none
    else if word.data.all isDigit09 then none
    else if word.length = 2 ∧ word ∉ (["wt", "sd", "hp", "lp"] : List String) then none
    else some word)

/-- Increment of a `Counter` entry (insertion-ordered). -/
def counterAdd (c : List (String × Nat)) (w : String) : List (String × Nat) :=
  updateAssoc c w (· + 1) 0

/-- Embedding of `_tokenize_and_count` (`description_analysis.py`, lines
210-270): word frequencies over a list of texts, keys in first-occurrence
order. -/
def tokenize_and_count (text_list : List String) : List (String × Nat) :=
  text_list.foldl (fun wc text => (processedWords text).foldl counterAdd wc) []

/-! ## Phase 2: keyword extraction (`_extract_group_keywords`) -/

/-- A Phase-1 group as consumed by Phase 2 (an `assumed_facility_groups`
entry of the Phase-1 summary; its `sample_facilities` and `attribute_count`
fields are not read by Phase 2 and are omitted). -/
structure FacilityGroup where
  group_id : Nat
  facility_count : Nat
  percent_of_total : ℚ
  key_attributes : List String
  facilities : List FacilityInfo
deriving DecidableEq

/-- The Phase-1 analysis results Phase 2 consumes: the `key_attributes`
column names (top-level) and the `assumed_facility_groups`. -/
structure Phase1Results where
  key_attribute_columns : List String
  assumed_facility_groups : List FacilityGroup
deriving DecidableEq

/-- The analysis columns: the key-attribute columns plus the `desc` and `id`
anchors, restricted to columns of the table.  The source iterates a Python
set here, whose order is unspecified; all downstream counts are sums over the
columns and do not depend on the order, which is fixed here as
first-occurrence order. -/
def buildAnalysisColumns (key_attr_names : List String) (fac_df : FacTable) : List String :=
  ((key_attr_names ++ ["desc", "id"]).dedup).filter (fun c => decide (c ∈ fac_df.columns))

/-- The fallback of `_extract_group_keywords`: when Phase 1 supplied no key
attributes, the standard descriptive columns are used. -/
def keyAttrNames (key_attribute_columns : List String) : List String :=
  if key_attribute_columns = [] then ["desc", "type", "category", "info0", "info1"]
  else key_attribute_columns

/-- The rows of the table whose `id` is one of the given facility ids
(`fac_df[fac_df['id'].isin(facility_ids)]`; a NaN id never matches). -/
def groupRows (fac_df : FacTable) (facility_ids : List String) : List FacRecord :=
  fac_df.rows.filter (fun r =>
    match r.cell "id" with
    | some v => decide (v ∈ facility_ids)
    | none => false)

/-- The non-NaN values of one column over a row selection. -/
def columnValues (rows : List FacRecord) (col : String) : List String :=
  rows.filterMap (fun r => r.cell col)

/-- The `all_text` list of one group: per analysis column, the column's
non-NaN values; a column that is constant over the group (exactly one
distinct value) contributes that value once instead of once per facility. -/
def allTextForGroup (fac_df : FacTable) (available_cols : List String)
    (facility_ids : List String) : List String :=
  available_cols.flatMap (fun col =>
    match columnValues (groupRows fac_df facility_ids) col with
    | [] => []
    | v :: vs => if vs.all (fun w => w = v) then [v] else v :: vs)

/-- Merge of one group's counts into the global counter (`Counter.update`):
existing keys are incremented in place, new keys are appended in the order of
the incoming counter. -/
def counterMerge (c other : List (String × Nat)) : List (String × Nat) :=
  other.foldl (fun acc p => updateAssoc acc p.1 (· + p.2) 0) c

/-- The first pass of `_extract_group_keywords`: the global keyword counter
over all groups (group-weighted: a column constant within a group counts
once for the whole group). -/
def globalKeywordCounts (fac_df : FacTable) (assumed_groups : List FacilityGroup)
    (available_cols : List String) : List (String × Nat) :=
  assumed_groups.foldl (fun acc group =>
    let facility_ids := group.facilities.map (fun f => f.id)
    let all_text := allTextForGroup fac_df available_cols facility_ids
    counterMerge acc (tokenize_and_count all_text)) []

/-- The dynamically detected noise terms: every token whose global count
exceeds 75% of the total facility count (`count > total_facilities * 0.75`,
a strict inequality). -/
def noiseTerms (total_facilities : Nat) (global_counts : List (String × Nat)) : List String :=
  (global_counts.filter (fun p => (p.2 : ℚ) > (total_facilities : ℚ) * 0.75)).map Prod.fst

/-- Ascending insertion for `sorted(...)` on strings. -/
def insertAscStr (x : String) : List String → List String
  | [] => [x]
  | y :: ys => if x ≤ y then x :: y :: ys else y :: insertAscStr x ys

/-- Python `sorted` on a list of strings. -/
def sortAscStr (l : List String) : List String := l.foldr insertAscStr []

/-- One `groups` entry of the keyword extraction: `top_keywords` holds
(word, count, frequency) with the frequency rounded to two decimals as in the
source (`round(count / len(facilities), 2)`). -/
structure GroupKeywords where
  group_id : Nat
  facility_count : Nat
  total_words : Nat
  unique_words : Nat
  filtered_unique_words : Nat
  top_keywords : List (String × Nat × ℚ)
deriving DecidableEq

/-- Result of `_extract_group_keywords`. -/
structure KeywordExtraction where
  groups : List GroupKeywords
  columns_analyzed : List String
  noise_terms_filtered : List String
  noise_threshold : ℚ
deriving DecidableEq

/-- The second pass of `_extract_group_keywords` over one group: the noise
terms from the first pass are removed from the group's counter before the top
20 keywords are taken (`Counter.most_common(20)`, a stable sort by count
descending). -/
def groupKeywordsData (fac_df : FacTable) (available_cols : List String)
    (noise_terms : List String) (group : FacilityGroup) : GroupKeywords :=
  let facility_ids := group.facilities.map (fun f => f.id)
  let all_text := allTextForGroup fac_df available_cols facility_ids
  let keywords := tokenize_and_count all_text
  let filtered_keywords := keywords.filter (fun p => decide (p.1 ∉ noise_terms))
  let top_keywords := (sortDescBy (fun p => p.2) filtered_keywords).take 20
  { group_id := group.group_id
    facility_count := group.facilities.length
    total_words := (keywords.map Prod.snd).sum
    unique_words := keywords.length
    filtered_unique_words := filtered_keywords.length
    top_keywords := top_keywords.map (fun p =>
      (p.1, p.2, pyRound 2 ((p.2 : ℚ) / (group.facilities.length : ℚ)))) }

/-- Embedding of `_extract_group_keywords` (`description_analysis.py`, lines
92-207): two passes over the groups; the first pass builds the global counter
and the dynamic noise list, the second builds each group's keyword data with
the noise terms removed. -/
def extract_group_keywords (fac_df : FacTable) (assumed_groups : List FacilityGroup)
    (key_attribute_columns : List String) : KeywordExtraction :=
  let key_attr_names := keyAttrNames key_attribute_columns
  let available_cols := buildAnalysisColumns key_attr_names fac_df
  let total_facilities := fac_df.rows.length
  let global_keyword_counts := globalKeywordCounts fac_df assumed_groups available_cols
  let noise_terms := noiseTerms total_facilities global_keyword_counts
  let groups_data := assumed_groups.map (groupKeywordsData fac_df available_cols noise_terms)
  { groups := groups_data
    columns_analyzed := available_cols
    noise_terms_filtered := sortAscStr noise_terms
    noise_threshold := 0.75 }

/-- The tokens a single facility row contributes through the analysis
columns; used to state that a token appears in a facility. -/
def rowTokens (available_cols : List String) (r : FacRecord) : List String :=
  available_cols.flatMap (fun col =>
    match r.cell col with
    | some v => processedWords v
    | none => [])

/-- A token appears in 100% of the facilities of the table (through the
analysis columns). -/
def tokenAppearsInAllFacilities (fac_df : FacTable) (cols : List String) (w : String) : Prop :=
  ∀ r ∈ fac_df.rows, w ∈ rowTokens cols r

/-! ## Phase 2: coherence, naming, equipment types -/

/-- One `validations` entry of `_validate_semantic_coherence`; the
display-only `reason`, `concentration_ratio`, `top_keyword_frequency` and
`unique_word_count` fields are omitted.  The coherence score is stored
rounded to three decimals as in the source. -/
structure GroupValidation where
  group_id : Nat
  coherence_score : ℚ
  confidence : String
deriving DecidableEq

/-- Result of `_validate_semantic_coherence`. -/
structure GroupValidations where
  validations : List GroupValidation
  high_confidence_groups : Nat
  medium_confidence_groups : Nat
  low_confidence_groups : Nat
deriving DecidableEq

/-- Embedding of `_validate_semantic_coherence` (`description_analysis.py`,
lines 277-337): a group with no keywords or no words gets score `0` and
confidence `none`; otherwise the coherence is half the top-5 concentration
ratio plus half the capped top-keyword frequency, and the tier thresholds are
`≥ 0.7` for high and `≥ 0.4` for medium. -/
def validate_semantic_coherence (group_keywords : KeywordExtraction) : GroupValidations :=
  let validations := group_keywords.groups.map (fun g =>
    if g.top_keywords = [] ∨ g.total_words = 0 then
      { group_id := g.group_id, coherence_score := 0, confidence := "none" : GroupValidation }
    else
      let top_5_count := ((g.top_keywords.take 5).map (fun p => p.2.1)).sum
      let concentration_ratio : ℚ :=
        if g.total_words > 0 then (top_5_count : ℚ) / (g.total_words : ℚ) else 0
      let top_keyword_freq : ℚ := match g.top_keywords with
        | [] => 0
        | p :: _ => p.2.2
      let coherence_score := concentration_ratio * 0.5 + min top_keyword_freq 1 * 0.5
      let confidence :=
        if coherence_score ≥ 0.7 then "high"
        else if coherence_score ≥ 0.4 then "medium"
        else "low"
      { group_id := g.group_id
        coherence_score := pyRound 3 coherence_score
        confidence := confidence : GroupValidation })
  { validations := validations
    high_confidence_groups := validations.countP (fun v => v.confidence = "high")
    medium_confidence_groups := validations.countP (fun v => v.confidence = "medium")
    low_confidence_groups := validations.countP (fun v => v.confidence = "low") }

/-- Scan of the substring test: does the pattern start at any suffix. -/
def containsSubGo (pat : List Char) : List Char → Bool
  | [] => pat.isEmpty
  | c :: cs => pat.isPrefixOf (c :: cs) || containsSubGo pat cs

/-- Python substring test `pat in hay`. -/
def containsSub (hay pat : String) : Bool := containsSubGo pat.data hay.data

/-- ASCII `str.lower`. -/
def strLower (s : String) : String := ⟨s.data.map toLowerAZ⟩

/-- ASCII `str.title`: upper-case every letter that follows a non-letter,
lower-case the other letters. -/
def pyTitleGo : Bool → List Char → List Char
  | _, [] => []
  | prevAlpha, c :: cs =>
    let isAl := isUpperAZ c || isLowerAZ c
    (if isAl && !prevAlpha then toUpperAZ c else toLowerAZ c) :: pyTitleGo isAl cs

/-- Python `str.title` on ASCII data. -/
def pyTitle (s : String) : String := ⟨pyTitleGo false s.data⟩

/-- Embedding of `_generate_name_from_keywords` (`description_analysis.py`,
lines 397-448): substring rules over the space-joined lower-cased keywords,
with the title-cased strongest keyword plus `" Equipment"` as fallback. -/
def generate_name_from_keywords (keywords : List String) : String :=
  match keywords with
  | [] => "Unknown Equipment Type"
  | k0 :: _ =>
    let keyword_str := strLower (String.intercalate " " keywords)
    if containsSub keyword_str "well" then
      if containsSub keyword_str "production" || containsSub keyword_str "prod" then
        "Production Wells"
      else if containsSub keyword_str "injection" || containsSub keyword_str "injector" then
        "Injection Wells"
      else if containsSub keyword_str "water" then "Water Wells"
      else "Wells"
    else if containsSub keyword_str "meter" || containsSub keyword_str "metering" then
      if containsSub keyword_str "gas" then "Gas Meters"
      else if containsSub keyword_str "flow" then "Flow Meters"
      else "Meters"
    else if containsSub keyword_str "separator" || containsSub keyword_str "sep" then
      "Separators"
    else if containsSub keyword_str "tank" || containsSub keyword_str "storage" then
      "Tanks/Storage"
    else if containsSub keyword_str "compressor" || containsSub keyword_str "comp" then
      "Compressors"
    else if containsSub keyword_str "pump" then "Pumps"
    else if containsSub keyword_str "heater" || containsSub keyword_str "treater" then
      "Heaters/Treaters"
    else pyTitle k0 ++ " Equipment"

/-- Embedding of `_generate_equipment_types` (`description_analysis.py`,
lines 344-394).  The `group_id`-indexed dicts over the keyword and validation
lists are built with last-wins assignment as in the dict comprehensions of
the source; absent entries fall back to no keywords, confidence `unknown`
and coherence `0.0`.  The unused `fac_df` parameter of the source is
dropped. -/
def generate_equipment_types (assumed_groups : List FacilityGroup)
    (group_keywords : KeywordExtraction) (validations : GroupValidations) :
    List EquipmentType :=
  let keyword_groups := group_keywords.groups.foldl (fun d g => setAssoc d g.group_id g) []
  let validation_map := validations.validations.foldl (fun d v => setAssoc d v.group_id v) []
  assumed_groups.map (fun group =>
    let top_keywords := match getAssoc? keyword_groups group.group_id with
      | some kd => kd.top_keywords
      | none => []
    let top_3_words := (top_keywords.take 3).map (fun p => p.1)
    { equipment_type_id := group.group_id
      suggested_name := generate_name_from_keywords top_3_words
      keywords := top_3_words
      facility_count := group.facility_count
      facility_ids := group.facilities.map (fun f => f.id)
      confidence := match getAssoc? validation_map group.group_id with
        | some v => v.confidence
        | none => "unknown"
      coherence_score := match getAssoc? validation_map group.group_id with
        | some v => v.coherence_score
        | none => 0 })

/-- Accumulator of `_build_equipment_vocabulary`. -/
structure VocabAcc where
  keywords : Finset String
  facility_groups : List Nat
  total_facilities : Nat
  confidence_scores : List ℚ
deriving DecidableEq

/-- One vocabulary entry (`keywords` is the sorted materialization of the
keyword set; `average_confidence` is rounded to three decimals as in the
source). -/
structure VocabularyEntry where
  keywords : List String
  facility_groups : List Nat
  total_facilities : Nat
  average_confidence : ℚ
deriving DecidableEq

/-- Embedding of `_build_equipment_vocabulary` (`description_analysis.py`,
lines 455-489), keyed by suggested name.  The `facility_groups_matched` list
of a Phase-2 equipment type is `[group_id]`, which equals
`[equipment_type_id]` here. -/
def build_equipment_vocabulary (equipment_types : List EquipmentType) :
    List (String × VocabularyEntry) :=
  let acc := equipment_types.foldl (fun d eq =>
    let prev := (getAssoc? d eq.suggested_name).getD ⟨∅, [], 0, []⟩
    setAssoc d eq.suggested_name
      { keywords := prev.keywords ∪ eq.keywords.toFinset
        facility_groups := prev.facility_groups ++ [eq.equipment_type_id]
        total_facilities := prev.total_facilities + eq.facility_count
        confidence_scores := prev.confidence_scores ++ [eq.coherence_score] : VocabAcc }) []
  acc.map (fun p =>
    let avg : ℚ :=
      if p.2.confidence_scores = [] then 0 else listMean p.2.confidence_scores
    (p.1, { keywords := p.2.keywords.sort (· ≤ ·)
            facility_groups := p.2.facility_groups
            total_facilities := p.2.total_facilities
            average_confidence := pyRound 3 avg : VocabularyEntry }))

/-- The Phase-2 success payload (`analysis_timestamp` and the
`recommendations` strings are presentation concerns and not modelled). -/
structure Phase2Results where
  total_facilities : Nat
  phase_1_groups : Nat
  keyword_extraction : KeywordExtraction
  group_validations : GroupValidations
  assumed_equipment_types : List EquipmentType
  equipment_vocabulary : List (String × VocabularyEntry)
deriving DecidableEq

/-- Embedding of `analyze_fac_descriptions` (`description_analysis.py`,
lines 24-86).  The repository's error convention is a dict carrying an
`"error"` key, rendered here as `Except.error`; this function has no code
path that produces one - it unconditionally builds the success dict, also
for an empty group list.  `summary_total_rows` is the `"Total Rows"` entry of
the pre-computed summary, used only for the `total_facilities` output field;
the output-detail trimming of the result is display-only and not modelled. -/
def analyze_fac_descriptions (fac_df : FacTable) (summary_total_rows : Nat)
    (analysis_attributes : Phase1Results) : Except String Phase2Results :=
  let assumed_groups := analysis_attributes.assumed_facility_groups
  let group_keywords :=
    extract_group_keywords fac_df assumed_groups analysis_attributes.key_attribute_columns
  let validations := validate_semantic_coherence group_keywords
  let equipment_types := generate_equipment_types assumed_groups group_keywords validations
  .ok { total_facilities := summary_total_rows
        phase_1_groups := assumed_groups.length
        keyword_extraction := group_keywords
        group_validations := validations
        assumed_equipment_types := equipment_types
        equipment_vocabulary := build_equipment_vocabulary equipment_types }

/-- A relationship entry connects the unordered pair of ids `a`, `b`. -/
def connectsPair (a b : Nat) (r : HierarchyRelationship) : Bool :=
  (r.parent_id == a && r.child_id == b) || (r.parent_id == b && r.child_id == a)

/-! ## Concrete example inputs used by witnesses and counterexamples -/

/-- UDC statistics of a code carried by every member facility. -/
def exStatsCore : UdcStats :=
  { count := 3, tag_count := 3, coverage_pct := 100, udcClass := "core" }

/-- A profile with three facilities and core codes X, Y, Z. -/
def exPA : UdcProfile :=
  { equipment_type_id := 1
    suggested_name := "A"
    facility_count := 3
    facility_ids := ["a1", "a2", "a3"]
    total_tags := 9
    distinct_udcs := 3
    udc_coverage := [("X", exStatsCore), ("Y", exStatsCore), ("Z", exStatsCore)]
    warning := none }

/-- A profile with two facilities and core codes X, Y; its Jaccard similarity
with `exPA` on core+common codes is `2/3 > 0.60`. -/
def exPB : UdcProfile :=
  { equipment_type_id := 2
    suggested_name := "B"
    facility_count := 2
    facility_ids := ["b1", "b2"]
    total_tags := 4
    distinct_udcs := 2
    udc_coverage := [("X", exStatsCore), ("Y", exStatsCore)]
    warning := none }

/-- An equipment type with one member facility and no join-table evidence. -/
def exT0 : EquipmentType :=
  { equipment_type_id := 1
    suggested_name := "Pumps"
    keywords := ["pump"]
    facility_count := 1
    facility_ids := ["f1"]
    confidence := "high"
    coherence_score := 1/2 }

/-- UDC statistics of a code carried by both member facilities. -/
def exStats1 : UdcStats :=
  { count := 2, tag_count := 2, coverage_pct := 100, udcClass := "core" }

/-- A profile whose all-tier UDC set is u1-u4. -/
def exQA : UdcProfile :=
  { equipment_type_id := 1
    suggested_name := "Meters"
    facility_count := 2
    facility_ids := ["m1", "m2"]
    total_tags := 8
    distinct_udcs := 4
    udc_coverage := [("u1", exStats1), ("u2", exStats1), ("u3", exStats1), ("u4", exStats1)]
    warning := none }

/-- A profile whose all-tier UDC set is u1-u5; its Jaccard similarity with
`exQA` on all tiers is exactly `4/5 = 0.80`. -/
def exQB : UdcProfile :=
  { equipment_type_id := 2
    suggested_name := "Gas Meters"
    facility_count := 2
    facility_ids := ["g1", "g2"]
    total_tags := 10
    distinct_udcs := 5
    udc_coverage := [("u1", exStats1), ("u2", exStats1), ("u3", exStats1),
      ("u4", exStats1), ("u5", exStats1)]
    warning := none }

/-- The equipment type matching `exQA`. -/
def exTA : EquipmentType :=
  { equipment_type_id := 1
    suggested_name := "Meters"
    keywords := ["meter"]
    facility_count := 2
    facility_ids := ["m1", "m2"]
    confidence := "medium"
    coherence_score := 1/2 }

/-- The equipment type matching `exQB`. -/
def exTB : EquipmentType :=
  { equipment_type_id := 2
    suggested_name := "Gas Meters"
    keywords := ["gas", "meter"]
    facility_count := 2
    facility_ids := ["g1", "g2"]
    confidence := "medium"
    coherence_score := 1/2 }

/-- An equipment type whose member facility-id list is empty. -/
def exTEmpty : EquipmentType :=
  { equipment_type_id := 7
    suggested_name := "Orphan Equipment"
    keywords := ["orphan"]
    facility_count := 0
    facility_ids := []
    confidence := "low"
    coherence_score := 0 }

/-- A facility table of four rows whose `desc` values are all identical, so
the `desc` column is constant over the group of all four facilities. -/
def exTableC5 : FacTable :=
  { columns := ["id", "desc"]
    rows := [⟨[("id", some "f1"), ("desc", some "pump station")]⟩,
             ⟨[("id", some "f2"), ("desc", some "pump station")]⟩,
             ⟨[("id", some "f3"), ("desc", some "pump station")]⟩,
             ⟨[("id", some "f4"), ("desc", some "pump station")]⟩] }

/-- A single Phase-1 group holding all four facilities of `exTableC5`. -/
def exGroupC5 : FacilityGroup :=
  { group_id := 1
    facility_count := 4
    percent_of_total := 100
    key_attributes := []
    facilities := [⟨"f1", "pump station", "N/A"⟩, ⟨"f2", "pump station", "N/A"⟩,
                   ⟨"f3", "pump station", "N/A"⟩, ⟨"f4", "pump station", "N/A"⟩] }

/-- A 4-row table on which the noise guarantee does hold: every description
contains `pump` but the descriptions differ, so the `desc` column is not
constant over the group and the group-weighted count of `pump` is 4. -/
def exTableC5W : FacTable :=
  { columns := ["id", "desc"]
    rows := [⟨[("id", some "f1"), ("desc", some "pump alpha")]⟩,
             ⟨[("id", some "f2"), ("desc", some "pump beta")]⟩,
             ⟨[("id", some "f3"), ("desc", some "pump gamma")]⟩,
             ⟨[("id", some "f4"), ("desc", some "pump delta")]⟩] }

/-- A single Phase-1 group holding all four facilities of `exTableC5W`. -/
def exGroupC5W : FacilityGroup :=
  { group_id := 1
    facility_count := 4
    percent_of_total := 100
    key_attributes := []
    facilities := [⟨"f1", "pump alpha", "N/A"⟩, ⟨"f2", "pump beta", "N/A"⟩,
                   ⟨"f3", "pump gamma", "N/A"⟩, ⟨"f4", "pump delta", "N/A"⟩] }

/-- The six signature columns of the cap counterexample table. -/
def exSigCols : List String := ["c0", "c1", "c2", "c3", "c4", "c5"]

/-- Row `i` of the cap counterexample table: column `cb` is filled exactly
when bit `b` of `i` is set, so distinct indices below 64 have distinct
presence vectors. -/
def exCapRow (i : Nat) : FacRecord :=
  ⟨("id", some (toString i)) ::
    (List.range 6).map (fun b =>
      ("c" ++ toString b, if i / 2 ^ b % 2 = 1 then some "x" else none))⟩

/-- A table of 51 rows with pairwise distinct presence vectors: one more
signature than the 50-pattern cap of `_discover_attribute_signatures`. -/
def exCapTable : FacTable :=
  { columns := "id" :: exSigCols
    rows := (List.range 51).map exCapRow }

/-! ## General lemmas -/

theorem jaccard_nonneg (A B : Finset String) : 0 ≤ calculate_jaccard_similarity A B := by
  simp only [calculate_jaccard_similarity]
  split_ifs
  · exact le_refl 0
  · exact le_refl 0
  · positivity

theorem jaccard_le_one (A B : Finset String) : calculate_jaccard_similarity A B ≤ 1 := by
  simp only [calculate_jaccard_similarity]
  split_ifs with h1 h2
  · exact zero_le_one
  · exact zero_le_one
  · have hu : (0 : ℚ) < ((A ∪ B).card : ℚ) := by
      exact_mod_cast Nat.pos_of_ne_zero h2
    rw [div_le_one hu]
    exact_mod_cast Finset.card_le_card Finset.inter_subset_union

theorem jaccard_comm (A B : Finset String) :
    calculate_jaccard_similarity A B = calculate_jaccard_similarity B A := by
  by_cases h : A = ∅ ∧ B = ∅
  · have h2 : B = ∅ ∧ A = ∅ := ⟨h.2, h.1⟩
    simp only [calculate_jaccard_similarity, if_pos h, if_pos h2]
  · have h2 : ¬(B = ∅ ∧ A = ∅) := fun hc => h ⟨hc.2, hc.1⟩
    simp only [calculate_jaccard_similarity, if_neg h, if_neg h2]
    rw [Finset.inter_comm, Finset.union_comm]

theorem jaccard_self (A : Finset String) (hA : A ≠ ∅) :
    calculate_jaccard_similarity A A = 1 := by
  have hne : A.Nonempty := Finset.nonempty_iff_ne_empty.mpr hA
  have hc0 : A.card ≠ 0 := (Finset.card_pos.mpr hne).ne'
  simp only [calculate_jaccard_similarity,
    if_neg (fun hc : A = ∅ ∧ A = ∅ => hA hc.1),
    Finset.inter_self, Finset.union_self, if_neg hc0]
  exact div_self (by exact_mod_cast hc0)

theorem jaccard_of_cards {A B : Finset String} {i u : ℕ} (hi : (A ∩ B).card = i)
    (hu : (A ∪ B).card = u) (hu0 : u ≠ 0) :
    calculate_jaccard_similarity A B = (i : ℚ) / (u : ℚ) := by
  have hne : ¬(A = ∅ ∧ B = ∅) := by
    rintro ⟨ha, hb⟩
    apply hu0
    rw [← hu, ha, hb]
    simp
  simp only [calculate_jaccard_similarity, if_neg hne, hi, hu, if_neg hu0]

theorem getAssoc?_nil {κ β : Type} [DecidableEq κ] (k : κ) :
    getAssoc? ([] : List (κ × β)) k = none := rfl

theorem getAssoc?_cons {κ β : Type} [DecidableEq κ] (k2 : κ) (w : β)
    (rest : List (κ × β)) (k : κ) :
    getAssoc? ((k2, w) :: rest) k = if k2 = k then some w else getAssoc? rest k := by
  by_cases h : k2 = k
  · simp [getAssoc?, List.find?, h]
  · simp [getAssoc?, List.find?, h]

theorem getAssoc?_setAssoc_self {κ β : Type} [DecidableEq κ]
    (l : List (κ × β)) (k : κ) (v : β) :
    getAssoc? (setAssoc l k v) k = some v := by
  induction l with
  | nil => simp [setAssoc, getAssoc?, List.find?]
  | cons hd tl ih =>
    obtain ⟨k2, w⟩ := hd
    simp only [setAssoc]
    by_cases h : k2 = k
    · rw [if_pos h, getAssoc?_cons, if_pos h]
    · rw [if_neg h, getAssoc?_cons, if_neg h]
      exact ih

theorem getAssoc?_setAssoc_ne {κ β : Type} [DecidableEq κ]
    (l : List (κ × β)) (k k2 : κ) (v : β) (h : k2 ≠ k) :
    getAssoc? (setAssoc l k v) k2 = getAssoc? l k2 := by
  induction l with
  | nil =>
    show getAssoc? [(k, v)] k2 = getAssoc? ([] : List (κ × β)) k2
    rw [getAssoc?_cons, if_neg (fun hc : k = k2 => h hc.symm), getAssoc?_nil]
  | cons hd tl ih =>
    obtain ⟨ka, w⟩ := hd
    simp only [setAssoc]
    by_cases hk : ka = k
    · have hne2 : ¬ ka = k2 := fun hc => h (hc ▸ hk)
      rw [if_pos hk, getAssoc?_cons, getAssoc?_cons, if_neg hne2, if_neg hne2]
    · rw [if_neg hk, getAssoc?_cons, getAssoc?_cons]
      by_cases hx : ka = k2
      · rw [if_pos hx, if_pos hx]
      · rw [if_neg hx, if_neg hx]
        exact ih

theorem mem_keys_setAssoc {κ β : Type} [DecidableEq κ]
    (l : List (κ × β)) (k : κ) (v : β) (x : κ) :
    x ∈ (setAssoc l k v).map Prod.fst ↔ x ∈ l.map Prod.fst ∨ x = k := by
  induction l with
  | nil => simp [setAssoc]
  | cons hd tl ih =>
    obtain ⟨ka, w⟩ := hd
    simp only [setAssoc]
    by_cases hk : ka = k
    · rw [if_pos hk]
      simp only [List.map_cons, List.mem_cons]
      constructor
      · rintro (h1 | h1)
        · exact Or.inr (h1.trans hk)
        · exact Or.inl (Or.inr h1)
      · rintro ((h1 | h1) | h1)
        · exact Or.inl h1
        · exact Or.inr h1
        · exact Or.inl (h1.trans hk.symm)
    · rw [if_neg hk]
      simp only [List.map_cons, List.mem_cons, ih]
      tauto

theorem keys_setAssoc_nodup {κ β : Type} [DecidableEq κ]
    (l : List (κ × β)) (k : κ) (v : β) (h : (l.map Prod.fst).Nodup) :
    ((setAssoc l k v).map Prod.fst).Nodup := by
  induction l with
  | nil => simp [setAssoc]
  | cons hd tl ih =>
    obtain ⟨ka, w⟩ := hd
    simp only [List.map_cons, List.nodup_cons] at h
    simp only [setAssoc]
    by_cases hk : ka = k
    · rw [if_pos hk]
      simp only [List.map_cons, List.nodup_cons]
      exact h
    · rw [if_neg hk]
      simp only [List.map_cons, List.nodup_cons]
      refine ⟨?_, ih h.2⟩
      intro hmem
      rcases (mem_keys_setAssoc tl k v ka).mp hmem with hm | hm
      · exact h.1 hm
      · exact hk hm

theorem lookupProfile_eq_some {udc_profiles : List UdcProfile}
    (hnd : (udc_profiles.map (·.equipment_type_id)).Nodup)
    {p : UdcProfile} (hp : p ∈ udc_profiles) :
    lookupProfile udc_profiles p.equipment_type_id = some p := by
  induction udc_profiles with
  | nil => cases hp
  | cons q qs ih =>
    simp only [List.map_cons, List.nodup_cons] at hnd
    rcases List.mem_cons.mp hp with h | h
    · subst h
      simp [lookupProfile, List.find?]
    · have hne : q.equipment_type_id ≠ p.equipment_type_id := by
        intro hc
        exact hnd.1 (hc ▸ List.mem_map_of_mem (·.equipment_type_id) h)
      simp only [lookupProfile, List.find?]
      rw [decide_eq_false hne]
      exact ih hnd.2 h

theorem mem_keys_foldl_setAssoc (f : UdcProfile → Finset String) :
    ∀ (ps : List UdcProfile) (acc : List (Nat × Finset String)) (x : Nat),
    (x ∈ ((ps.foldl (fun d p => setAssoc d p.equipment_type_id (f p)) acc).map Prod.fst) ↔
      x ∈ acc.map Prod.fst ∨ x ∈ ps.map (·.equipment_type_id)) := by
  intro ps
  induction ps with
  | nil => intro acc x; simp
  | cons q qs ih =>
    intro acc x
    simp only [List.foldl_cons, List.map_cons, List.mem_cons]
    rw [ih, mem_keys_setAssoc]
    tauto

theorem mem_keys_buildEqUdcSets (f : UdcProfile → Finset String)
    (ps : List UdcProfile) (x : Nat) :
    x ∈ (buildEqUdcSets f ps).map Prod.fst ↔ x ∈ ps.map (·.equipment_type_id) := by
  rw [buildEqUdcSets, mem_keys_foldl_setAssoc]
  simp

theorem keys_foldl_setAssoc_nodup (f : UdcProfile → Finset String) :
    ∀ (ps : List UdcProfile) (acc : List (Nat × Finset String)),
    (acc.map Prod.fst).Nodup →
    (((ps.foldl (fun d p => setAssoc d p.equipment_type_id (f p)) acc).map Prod.fst)).Nodup := by
  intro ps
  induction ps with
  | nil => intro acc h; exact h
  | cons q qs ih =>
    intro acc h
    exact ih _ (keys_setAssoc_nodup acc q.equipment_type_id (f q) h)

theorem keys_buildEqUdcSets_nodup (f : UdcProfile → Finset String) (ps : List UdcProfile) :
    ((buildEqUdcSets f ps).map Prod.fst).Nodup :=
  keys_foldl_setAssoc_nodup f ps [] (by simp)

theorem getAssoc?_foldl_setAssoc_not_mem (f : UdcProfile → Finset String) :
    ∀ (ps : List UdcProfile) (acc : List (Nat × Finset String)) (k : Nat),
    k ∉ ps.map (·.equipment_type_id) →
    getAssoc? (ps.foldl (fun d p => setAssoc d p.equipment_type_id (f p)) acc) k
      = getAssoc? acc k := by
  intro ps
  induction ps with
  | nil => intro acc k _; rfl
  | cons q qs ih =>
    intro acc k hk
    simp only [List.map_cons, List.mem_cons] at hk
    push_neg at hk
    rw [List.foldl_cons, ih _ _ hk.2, getAssoc?_setAssoc_ne _ _ _ _ (fun hc => hk.1 hc)]

theorem getAssoc?_foldl_setAssoc_mem (f : UdcProfile → Finset String) :
    ∀ (ps : List UdcProfile) (acc : List (Nat × Finset String)) (p : UdcProfile),
    p ∈ ps → (ps.map (·.equipment_type_id)).Nodup →
    getAssoc? (ps.foldl (fun d q => setAssoc d q.equipment_type_id (f q)) acc)
      p.equipment_type_id = some (f p) := by
  intro ps
  induction ps with
  | nil => intro acc p hp; cases hp
  | cons q qs ih =>
    intro acc p hp hnd
    simp only [List.map_cons, List.nodup_cons] at hnd
    rcases List.mem_cons.mp hp with h | h
    · subst h
      rw [List.foldl_cons, getAssoc?_foldl_setAssoc_not_mem f qs _ _ hnd.1,
        getAssoc?_setAssoc_self]
    · rw [List.foldl_cons]
      exact ih _ p h hnd.2

theorem getAssoc?_buildEqUdcSets (f : UdcProfile → Finset String)
    {ps : List UdcProfile} {p : UdcProfile} (hp : p ∈ ps)
    (hnd : (ps.map (·.equipment_type_id)).Nodup) :
    getAssoc? (buildEqUdcSets f ps) p.equipment_type_id = some (f p) :=
  getAssoc?_foldl_setAssoc_mem f ps [] p hp hnd

/-! ## Theorems for C9 -/

/-- C9: the Jaccard similarity used by Phase 3 lies in `[0,1]` for all finite
sets, is symmetric, equals `1` on any non-empty set paired with itself, and
equals `0` when both sets are empty. -/
theorem jaccard_properties (A B : Finset String) :
    0 ≤ calculate_jaccard_similarity A B ∧
    calculate_jaccard_similarity A B ≤ 1 ∧
    calculate_jaccard_similarity A B = calculate_jaccard_similarity B A ∧
    (A ≠ ∅ → calculate_jaccard_similarity A A = 1) ∧
    calculate_jaccard_similarity (∅ : Finset String) (∅ : Finset String) = 0 := by
  refine ⟨jaccard_nonneg A B, jaccard_le_one A B, jaccard_comm A B,
    fun h => jaccard_self A h, ?_⟩
  simp [calculate_jaccard_similarity]

/-- C9 witness: instantiates `jaccard_properties` at a concrete non-empty set,
discharging the non-emptiness hypothesis of the `J(A,A) = 1` conjunct. -/
theorem jaccard_properties_witness :
    ({"FLOWGAS"} : Finset String) ≠ ∅ ∧
    calculate_jaccard_similarity {"FLOWGAS"} {"FLOWGAS"} = 1 :=
  ⟨by decide, (jaccard_properties {"FLOWGAS"} {"FLOWGAS"}).2.2.2.1 (by decide)⟩

/-! ## Theorems for C4 -/

/-- C4 counterexample: at `total_rows = 8`, `filled_count = 4`,
`unique_count = 2` the source computes `min(uniqueness_ratio * 2, 1) = 1` and a
score of `1`, while the formula of the claim (uniqueness ratio capped at `1`
without the factor `2`) yields `0.7`; the claim as stated is false. -/
theorem discriminativeScore_counterexample :
    discriminativeScore 8 4 2 = 1 ∧
    discriminativeScoreClaimed 8 4 2 = 7/10 ∧
    discriminativeScore 8 4 2 ≠ discriminativeScoreClaimed 8 4 2 := by
  refine ⟨?_, ?_, ?_⟩ <;> norm_num [discriminativeScore, discriminativeScoreClaimed]

/-- C4 (amended): the discriminative score is `0` when the total row count is
`0`, the fill rate is `0` (no filled cells) or the distinct count is `≤ 1`;
otherwise it equals `0.4` times the moderate-fill score
`1 - |fill_rate - 1/2| * 2` (which is `1` at 50% fill and falls off linearly
to `0` at the extremes) plus `0.6` times `min(2 * distinct/filled, 1)` - the
uniqueness ratio is doubled before being capped at `1.0`. -/
theorem discriminativeScore_formula (total_rows filled_count unique_count : ℕ) :
    (total_rows = 0 ∨ filled_count = 0 ∨ unique_count ≤ 1 →
      discriminativeScore total_rows filled_count unique_count = 0) ∧
    (0 < total_rows → 0 < filled_count → 2 ≤ unique_count →
      discriminativeScore total_rows filled_count unique_count
        = 2/5 * (1 - |(filled_count : ℚ) / (total_rows : ℚ) - 1/2| * 2)
          + 3/5 * min (2 * ((unique_count : ℚ) / (filled_count : ℚ))) 1) := by
  constructor
  · intro h
    simp only [discriminativeScore]
    split_ifs <;> try rfl
    all_goals exfalso
    all_goals rcases h with h | h | h <;> simp_all
  · intro ht hf hu
    have hfa : (filled_count : ℚ) ≠ 0 := by exact_mod_cast hf.ne'
    have hta : (total_rows : ℚ) ≠ 0 := by exact_mod_cast ht.ne'
    have hratn : ((filled_count : ℚ) / (total_rows : ℚ)) ≠ 0 := div_ne_zero hfa hta
    simp only [discriminativeScore]
    rw [if_pos ht, if_neg hratn, if_neg (show ¬ unique_count ≤ 1 by omega), if_pos hf]
    have e1 : (0.4 : ℚ) = 2/5 := by norm_num
    have e2 : (0.6 : ℚ) = 3/5 := by norm_num
    have e3 : (0.5 : ℚ) = 1/2 := by norm_num
    rw [e1, e2, e3, mul_comm ((unique_count : ℚ) / (filled_count : ℚ)) 2]
    ring

/-- C4 witness: instantiates the non-degenerate branch of
`discriminativeScore_formula` at `total = 10`, `filled = 6`, `unique = 3`. -/
theorem discriminativeScore_formula_witness :
    0 < 10 ∧ 0 < 6 ∧ 2 ≤ 3 ∧
    discriminativeScore 10 6 3
      = 2/5 * (1 - |(6 : ℚ) / (10 : ℚ) - 1/2| * 2)
        + 3/5 * min (2 * ((3 : ℚ) / (6 : ℚ))) 1 :=
  ⟨by norm_num, by norm_num, by norm_num,
    (discriminativeScore_formula 10 6 3).2 (by norm_num) (by norm_num) (by norm_num)⟩

/-! ## Theorems for C2 -/

theorem confidenceBucket_eq_nil (udc_profiles : List UdcProfile)
    (equipment_types : List EquipmentType) (level : String) (h : level ≠ "unknown") :
    confidenceBucket udc_profiles equipment_types level = [] := by
  rw [confidenceBucket, List.filter_eq_nil_iff]
  intro p _
  cases hf : lookupType equipment_types p.equipment_type_id with
  | none => simp
  | some t =>
    simp only [EquipmentType.dictGetStr,
      if_neg (show ¬("confidence_level" : String) = "suggested_name" by decide),
      if_neg (show ¬("confidence_level" : String) = "confidence" by decide),
      decide_eq_true_eq]
    exact fun hc => h hc.symm

/-- C2 (code bug): `_analyze_confidence_levels` buckets a profile by
`eq_type.get("confidence_level", "unknown")`, but Phase 2 stores the tier
under the key `"confidence"` (which the tree renderer reads), so the lookup
always yields `"unknown"` and every confidence bucket reports `count = 0`
with no metrics, for every input - no equipment type with a UDC profile is
ever bucketed by its Phase-2 tier. -/
theorem confidence_analysis_empty_buckets (udc_profiles : List UdcProfile)
    (equipment_types : List EquipmentType) :
    (analyze_confidence_levels udc_profiles equipment_types).high_confidence
        = { count := 0, details := none } ∧
    (analyze_confidence_levels udc_profiles equipment_types).medium_confidence
        = { count := 0, details := none } ∧
    (analyze_confidence_levels udc_profiles equipment_types).low_confidence
        = { count := 0, details := none } := by
  have hh := confidenceBucket_eq_nil udc_profiles equipment_types "high" (by decide)
  have hm := confidenceBucket_eq_nil udc_profiles equipment_types "medium" (by decide)
  have hl := confidenceBucket_eq_nil udc_profiles equipment_types "low" (by decide)
  refine ⟨?_, ?_, ?_⟩ <;>
    simp [analyze_confidence_levels, hh, hm, hl, confidenceLevelStats]

/-! ## Theorems for C7 -/

/-- C7: an equipment type with member facilities but zero matching join rows
is still emitted as a UDCCoverageProfile with `distinct_udcs = 0`, an empty
coverage dict and the explicit no-evidence warning, rather than dropped. -/
theorem no_evidence_still_emitted (merged_df : List JoinRow)
    (equipment_types : List EquipmentType) (output_detail : String)
    (t : EquipmentType) (ht : t ∈ equipment_types) (hids : t.facility_ids ≠ [])
    (hnorows : merged_df.filter (fun r =>
      match r.fac_id with
      | some fid => decide (fid ∈ t.facility_ids)
      | none => false) = []) :
    ∃ p ∈ validate_equipment_with_udcs merged_df equipment_types output_detail,
      p.equipment_type_id = t.equipment_type_id ∧ p.distinct_udcs = 0 ∧
      p.udc_coverage = [] ∧
      p.warning = some "No PNT tags found for these facilities" := by
  refine ⟨{ equipment_type_id := t.equipment_type_id
            suggested_name := t.suggested_name
            facility_count := t.facility_ids.length
            facility_ids :=
              if output_detail = "full" then t.facility_ids else t.facility_ids.take 10
            total_tags := 0
            distinct_udcs := 0
            udc_coverage := []
            warning := some "No PNT tags found for these facilities" },
    ?_, rfl, rfl, rfl, rfl⟩
  apply List.mem_flatMap.mpr
  refine ⟨t, ht, ?_⟩
  simp only [validate_equipment_with_udcs, if_neg hids, hnorows]
  simp

/-- C7 witness: instantiates `no_evidence_still_emitted` at a one-type list
whose join table is empty. -/
theorem no_evidence_still_emitted_witness :
    exT0 ∈ [exT0] ∧ exT0.facility_ids ≠ [] ∧
    (∃ p ∈ validate_equipment_with_udcs [] [exT0] "summary",
      p.equipment_type_id = exT0.equipment_type_id ∧ p.distinct_udcs = 0 ∧
      p.udc_coverage = [] ∧
      p.warning = some "No PNT tags found for these facilities") :=
  ⟨List.mem_singleton.mpr rfl, by decide,
    no_evidence_still_emitted [] [exT0] "summary" exT0
      (List.mem_singleton.mpr rfl) (by decide) rfl⟩

/-! ## Theorems for C8 -/

/-- C8 counterexample: Phase 2 run on an empty Phase-1 group list does not
return a typed error - it unconditionally builds the success payload, so the
claim that every failed phase precondition yields a typed error is false. -/
theorem phase2_empty_groups_no_error :
    (analyze_fac_descriptions ⟨["id", "desc"], []⟩ 0 ⟨["desc"], []⟩).isOk = true := rfl

/-- C8 (amended): Phase 3 returns a typed error result (an error value with a
human-readable message) when the merged join table is absent and when the
equipment-type list is empty; Phase 2, however, has no such guard - on an
empty Phase-1 group list it returns a normal success result whose
equipment-type list is empty. -/
theorem phase_precondition_errors :
    (∀ (ets : List EquipmentType) (d : String),
      analyze_udc_bridge none ets d = Except.error "Merged dataset not found") ∧
    (∀ (rows : List JoinRow) (d : String),
      analyze_udc_bridge (some rows) [] d =
        Except.error "No equipment types found in analysis_descriptions") ∧
    (∀ (fac_df : FacTable) (n : Nat) (cols : List String),
      ∃ res, analyze_fac_descriptions fac_df n ⟨cols, []⟩ = Except.ok res ∧
        res.assumed_equipment_types = []) :=
  ⟨fun _ _ => rfl, fun _ _ => rfl, fun _ _ _ => ⟨_, rfl, rfl⟩⟩

/-! ## Theorems for C3 -/

theorem countP_flatMap {α β : Type} (l : List α) (f : α → List β) (p : β → Bool) :
    (l.flatMap f).countP p = (l.map (fun x => (f x).countP p)).sum := by
  induction l with
  | nil => rfl
  | cons a as ih => simp [List.countP_append, ih]

theorem sum_map_ite_eq_one {l : List Nat} {t : Nat} (hnd : l.Nodup) (ht : t ∈ l) :
    (l.map (fun y => if y = t then 1 else 0)).sum = 1 := by
  induction l with
  | nil => cases ht
  | cons a as ih =>
    simp only [List.nodup_cons] at hnd
    simp only [List.map_cons, List.sum_cons]
    rcases List.mem_cons.mp ht with h | h
    · subst h
      rw [if_pos rfl]
      have hz : (as.map (fun y => if y = t then 1 else 0)).sum = 0 := by
        apply List.sum_eq_zero
        intro x hx
        rcases List.mem_map.mp hx with ⟨y, hy, hyx⟩
        have hya : y ≠ t := fun hc => hnd.1 (hc ▸ hy)
        rw [← hyx, if_neg hya]
      omega
    · have hat : a ≠ t := fun hc => hnd.1 (hc ▸ h)
      rw [if_neg hat, ih hnd.2 h]

theorem sum_map_add {α : Type} (l : List α) (f g : α → Nat) :
    (l.map (fun x => f x + g x)).sum = (l.map f).sum + (l.map g).sum := by
  induction l with
  | nil => rfl
  | cons a as ih =>
    simp only [List.map_cons, List.sum_cons, ih]
    omega

theorem map_congr_mem {α β : Type} {f g : α → β} :
    ∀ {l : List α}, (∀ x ∈ l, f x = g x) → l.map f = l.map g := by
  intro l
  induction l with
  | nil => intro _; rfl
  | cons a as ih =>
    intro h
    simp only [List.map_cons]
    rw [h a (List.mem_cons_self a as), ih (fun x hx => h x (List.mem_cons_of_mem a hx))]

theorem connectsPair_eq_true_iff (a b : Nat) (r : HierarchyRelationship) :
    connectsPair a b r = true ↔
      ((r.parent_id = a ∧ r.child_id = b) ∨ (r.parent_id = b ∧ r.child_id = a)) := by
  simp [connectsPair]

theorem mem_hierarchyEdge {udc_profiles : List UdcProfile}
    {eq_udc_sets : List (Nat × Finset String)} {x y : Nat} {r : HierarchyRelationship}
    (hr : r ∈ hierarchyEdge udc_profiles eq_udc_sets x y) :
    x ≠ y ∧ ((r.parent_id = x ∧ r.child_id = y) ∨ (r.parent_id = y ∧ r.child_id = x)) := by
  by_cases h1 : x = y
  · rw [hierarchyEdge, if_pos h1] at hr
    cases hr
  · refine ⟨h1, ?_⟩
    simp only [hierarchyEdge, if_neg h1] at hr
    by_cases hj : calculate_jaccard_similarity ((getAssoc? eq_udc_sets x).getD ∅)
        ((getAssoc? eq_udc_sets y).getD ∅) > 0.60
    · rw [if_pos hj] at hr
      cases hfa : lookupProfile udc_profiles x with
      | none => rw [hfa] at hr; cases hr
      | some pa2 =>
        cases hfb : lookupProfile udc_profiles y with
        | none => rw [hfa, hfb] at hr; cases hr
        | some pb2 =>
          rw [hfa, hfb] at hr
          rcases List.mem_singleton.mp hr with rfl
          by_cases hc : pa2.facility_count > pb2.facility_count
          · rw [if_pos hc]
            exact Or.inl ⟨rfl, rfl⟩
          · rw [if_neg hc]
            exact Or.inr ⟨rfl, rfl⟩
    · rw [if_neg hj] at hr
      cases hr

theorem hierarchyEdge_of_sim {udc_profiles : List UdcProfile}
    (hnd : (udc_profiles.map (·.equipment_type_id)).Nodup)
    {pa pb : UdcProfile} (hpa : pa ∈ udc_profiles) (hpb : pb ∈ udc_profiles)
    (hne : pa.equipment_type_id ≠ pb.equipment_type_id)
    (hsim : calculate_jaccard_similarity (coreCommonUdcSet pa) (coreCommonUdcSet pb) > 0.60) :
    hierarchyEdge udc_profiles (buildEqUdcSets coreCommonUdcSet udc_profiles)
        pa.equipment_type_id pb.equipment_type_id
      = [{ parent_id := if pa.facility_count > pb.facility_count
             then pa.equipment_type_id else pb.equipment_type_id
           child_id := if pa.facility_count > pb.facility_count
             then pb.equipment_type_id else pa.equipment_type_id
           similarity := calculate_jaccard_similarity (coreCommonUdcSet pa) (coreCommonUdcSet pb)
           shared_udcs := coreCommonUdcSet pa ∩ coreCommonUdcSet pb
           shared_udc_count := (coreCommonUdcSet pa ∩ coreCommonUdcSet pb).card }] := by
  have ha := getAssoc?_buildEqUdcSets coreCommonUdcSet hpa hnd
  have hb := getAssoc?_buildEqUdcSets coreCommonUdcSet hpb hnd
  have hla := lookupProfile_eq_some hnd hpa
  have hlb := lookupProfile_eq_some hnd hpb
  simp only [hierarchyEdge, if_neg hne, ha, hb, Option.getD_some, hla, hlb]
  rw [if_pos hsim]
  by_cases hc : pa.facility_count > pb.facility_count
  · simp [hc]
  · simp [hc]

/-- C3 counterexample: for the qualifying pair `exPA`/`exPB` (core+common
similarity `2/3 > 0.60`) the hierarchy emits the relationship TWICE - the
inner loop of `_build_hierarchy_tree` runs over all ordered pairs, so each
qualifying unordered pair is visited in both orders; the claim that exactly
one relationship is emitted per qualifying pair is false. -/
theorem hierarchy_duplicate_edges :
    ((build_hierarchy_tree [exPA, exPB]).parent_child_relationships.map
      (fun r => (r.parent_id, r.child_id))) = [(1, 2), (1, 2)] ∧
    (build_hierarchy_tree [exPA, exPB]).parent_child_relationships.length ≠ 1 := by
  have hnd : (([exPA, exPB]).map (fun p => p.equipment_type_id)).Nodup := by decide
  have hpa : exPA ∈ [exPA, exPB] := List.mem_cons_self _ _
  have hpb : exPB ∈ [exPA, exPB] := List.mem_cons_of_mem _ (List.mem_cons_self _ _)
  have hne : exPA.equipment_type_id ≠ exPB.equipment_type_id := by decide
  have hsim : calculate_jaccard_similarity (coreCommonUdcSet exPA) (coreCommonUdcSet exPB)
      = (2 : ℚ) / 3 := jaccard_of_cards (by decide) (by decide) (by decide)
  have hgt : calculate_jaccard_similarity (coreCommonUdcSet exPA) (coreCommonUdcSet exPB)
      > 0.60 := by
    rw [hsim]
    norm_num
  have hgt2 : calculate_jaccard_similarity (coreCommonUdcSet exPB) (coreCommonUdcSet exPA)
      > 0.60 := by
    rw [jaccard_comm]
    exact hgt
  have hfc : exPA.facility_count > exPB.facility_count := by decide
  have hfc2 : ¬ exPB.facility_count > exPA.facility_count := by decide
  have h12 := hierarchyEdge_of_sim hnd hpa hpb hne hgt
  have h21 := hierarchyEdge_of_sim hnd hpb hpa (fun hc => hne hc.symm) hgt2
  rw [if_pos hfc] at h12
  rw [if_pos hfc] at h12
  rw [if_neg hfc2] at h21
  rw [if_neg hfc2] at h21
  have he11 : hierarchyEdge [exPA, exPB] (buildEqUdcSets coreCommonUdcSet [exPA, exPB])
      exPA.equipment_type_id exPA.equipment_type_id = [] := by
    simp [hierarchyEdge]
  have he22 : hierarchyEdge [exPA, exPB] (buildEqUdcSets coreCommonUdcSet [exPA, exPB])
      exPB.equipment_type_id exPB.equipment_type_id = [] := by
    simp [hierarchyEdge]
  have hrel : (build_hierarchy_tree [exPA, exPB]).parent_child_relationships
      = ((buildEqUdcSets coreCommonUdcSet [exPA, exPB]).map Prod.fst).flatMap
          (fun x => ((buildEqUdcSets coreCommonUdcSet [exPA, exPB]).map Prod.fst).flatMap
            (fun y => hierarchyEdge [exPA, exPB]
              (buildEqUdcSets coreCommonUdcSet [exPA, exPB]) x y)) := rfl
  have hkeys : (buildEqUdcSets coreCommonUdcSet [exPA, exPB]).map Prod.fst
      = [exPA.equipment_type_id, exPB.equipment_type_id] := by decide
  constructor
  · rw [hrel, hkeys]
    simp only [List.flatMap_cons, List.flatMap_nil]
    rw [he11, he22, h12, h21]
    rfl
  · rw [hrel, hkeys]
    simp only [List.flatMap_cons, List.flatMap_nil]
    rw [he11, he22, h12, h21]
    simp

/-- C3 (amended): for every pair of distinct profile ids whose core+common
UDC sets have Jaccard similarity strictly above `0.60`, the hierarchy builder
emits exactly TWO relationship entries connecting the pair (one per ordered
traversal of the pair), and when the facility counts differ every such entry
has the larger-facility-count side as the parent. -/
theorem hierarchy_pair_two_edges (udc_profiles : List UdcProfile)
    (hnd : (udc_profiles.map (·.equipment_type_id)).Nodup)
    (pa pb : UdcProfile) (hpa : pa ∈ udc_profiles) (hpb : pb ∈ udc_profiles)
    (hne : pa.equipment_type_id ≠ pb.equipment_type_id)
    (hsim : calculate_jaccard_similarity (coreCommonUdcSet pa) (coreCommonUdcSet pb) > 0.60) :
    ((build_hierarchy_tree udc_profiles).parent_child_relationships.countP
        (connectsPair pa.equipment_type_id pb.equipment_type_id)) = 2 ∧
    (pa.facility_count > pb.facility_count →
      ∀ r ∈ (build_hierarchy_tree udc_profiles).parent_child_relationships,
        connectsPair pa.equipment_type_id pb.equipment_type_id r = true →
        r.parent_id = pa.equipment_type_id ∧ r.child_id = pb.equipment_type_id) := by
  have hrel : (build_hierarchy_tree udc_profiles).parent_child_relationships
      = ((buildEqUdcSets coreCommonUdcSet udc_profiles).map Prod.fst).flatMap
          (fun x => ((buildEqUdcSets coreCommonUdcSet udc_profiles).map Prod.fst).flatMap
            (fun y => hierarchyEdge udc_profiles
              (buildEqUdcSets coreCommonUdcSet udc_profiles) x y)) := rfl
  have hka : pa.equipment_type_id
      ∈ (buildEqUdcSets coreCommonUdcSet udc_profiles).map Prod.fst :=
    (mem_keys_buildEqUdcSets _ _ _).mpr (List.mem_map_of_mem (·.equipment_type_id) hpa)
  have hkb : pb.equipment_type_id
      ∈ (buildEqUdcSets coreCommonUdcSet udc_profiles).map Prod.fst :=
    (mem_keys_buildEqUdcSets _ _ _).mpr (List.mem_map_of_mem (·.equipment_type_id) hpb)
  have hknd : ((buildEqUdcSets coreCommonUdcSet udc_profiles).map Prod.fst).Nodup :=
    keys_buildEqUdcSets_nodup _ _
  have hsim2 : calculate_jaccard_similarity (coreCommonUdcSet pb) (coreCommonUdcSet pa)
      > 0.60 := by rw [jaccard_comm]; exact hsim
  have hedge_ab := hierarchyEdge_of_sim hnd hpa hpb hne hsim
  have hedge_ba := hierarchyEdge_of_sim hnd hpb hpa (fun hc => hne hc.symm) hsim2
  have hcount_ab : (hierarchyEdge udc_profiles (buildEqUdcSets coreCommonUdcSet udc_profiles)
      pa.equipment_type_id pb.equipment_type_id).countP
      (connectsPair pa.equipment_type_id pb.equipment_type_id) = 1 := by
    rw [hedge_ab]
    by_cases hc : pa.facility_count > pb.facility_count <;>
      simp [List.countP_cons, connectsPair, hc]
  have hcount_ba : (hierarchyEdge udc_profiles (buildEqUdcSets coreCommonUdcSet udc_profiles)
      pb.equipment_type_id pa.equipment_type_id).countP
      (connectsPair pa.equipment_type_id pb.equipment_type_id) = 1 := by
    rw [hedge_ba]
    by_cases hc : pb.facility_count > pa.facility_count <;>
      simp [List.countP_cons, connectsPair, hc]
  have hedge_count : ∀ x y : Nat,
      (hierarchyEdge udc_profiles (buildEqUdcSets coreCommonUdcSet udc_profiles) x y).countP
        (connectsPair pa.equipment_type_id pb.equipment_type_id)
        = if (x = pa.equipment_type_id ∧ y = pb.equipment_type_id)
            ∨ (x = pb.equipment_type_id ∧ y = pa.equipment_type_id) then 1 else 0 := by
    intro x y
    by_cases hcond : (x = pa.equipment_type_id ∧ y = pb.equipment_type_id)
        ∨ (x = pb.equipment_type_id ∧ y = pa.equipment_type_id)
    · rw [if_pos hcond]
      rcases hcond with ⟨hx, hy⟩ | ⟨hx, hy⟩
      · subst hx
        subst hy
        exact hcount_ab
      · subst hx
        subst hy
        exact hcount_ba
    · rw [if_neg hcond]
      apply List.countP_eq_zero.mpr
      intro r hr hcp
      rcases (mem_hierarchyEdge hr).2 with ⟨hp, hc⟩ | ⟨hp, hc⟩ <;>
        rcases (connectsPair_eq_true_iff _ _ r).mp hcp with ⟨hp2, hc2⟩ | ⟨hp2, hc2⟩ <;>
        first
          | exact hcond (Or.inl ⟨hp ▸ hp2, hc ▸ hc2⟩)
          | exact hcond (Or.inr ⟨hp ▸ hp2, hc ▸ hc2⟩)
          | exact hcond (Or.inr ⟨hc ▸ hc2, hp ▸ hp2⟩)
          | exact hcond (Or.inl ⟨hc ▸ hc2, hp ▸ hp2⟩)
  constructor
  · rw [hrel, countP_flatMap]
    have hinner : ∀ x ∈ (buildEqUdcSets coreCommonUdcSet udc_profiles).map Prod.fst,
        (((buildEqUdcSets coreCommonUdcSet udc_profiles).map Prod.fst).flatMap
          (fun y => hierarchyEdge udc_profiles
            (buildEqUdcSets coreCommonUdcSet udc_profiles) x y)).countP
          (connectsPair pa.equipment_type_id pb.equipment_type_id)
          = (if x = pa.equipment_type_id then 1 else 0)
            + (if x = pb.equipment_type_id then 1 else 0) := by
      intro x _
      rw [countP_flatMap, map_congr_mem (fun y _ => hedge_count x y)]
      by_cases hxa : x = pa.equipment_type_id
      · have hxb : ¬ x = pb.equipment_type_id := fun hcx => hne (hxa.symm.trans hcx)
        rw [if_pos hxa, if_neg hxb]
        have hfun : ((buildEqUdcSets coreCommonUdcSet udc_profiles).map Prod.fst).map
            (fun y => if (x = pa.equipment_type_id ∧ y = pb.equipment_type_id)
              ∨ (x = pb.equipment_type_id ∧ y = pa.equipment_type_id) then 1 else 0)
            = ((buildEqUdcSets coreCommonUdcSet udc_profiles).map Prod.fst).map
              (fun y => if y = pb.equipment_type_id then 1 else 0) := by
          apply map_congr_mem
          intro y _
          by_cases hy : y = pb.equipment_type_id
          · simp [hxa, hy]
          · simp [hxa, hxb, hy, hne, Ne.symm hne]
        rw [hfun, sum_map_ite_eq_one hknd hkb]
      · by_cases hxb : x = pb.equipment_type_id
        · rw [if_neg hxa, if_pos hxb]
          have hfun : ((buildEqUdcSets coreCommonUdcSet udc_profiles).map Prod.fst).map
              (fun y => if (x = pa.equipment_type_id ∧ y = pb.equipment_type_id)
                ∨ (x = pb.equipment_type_id ∧ y = pa.equipment_type_id) then 1 else 0)
              = ((buildEqUdcSets coreCommonUdcSet udc_profiles).map Prod.fst).map
                (fun y => if y = pa.equipment_type_id then 1 else 0) := by
            apply map_congr_mem
            intro y _
            by_cases hy : y = pa.equipment_type_id
            · simp [hxa, hxb, hy]
            · simp [hxa, hxb, hy, hne, Ne.symm hne]
          rw [hfun, sum_map_ite_eq_one hknd hka]
        · rw [if_neg hxa, if_neg hxb]
          have hfun : ((buildEqUdcSets coreCommonUdcSet udc_profiles).map Prod.fst).map
              (fun y => if (x = pa.equipment_type_id ∧ y = pb.equipment_type_id)
                ∨ (x = pb.equipment_type_id ∧ y = pa.equipment_type_id) then 1 else 0)
              = ((buildEqUdcSets coreCommonUdcSet udc_profiles).map Prod.fst).map
                (fun _ => 0) := by
            apply map_congr_mem
            intro y _
            simp [hxa, hxb]
          rw [hfun]
          apply List.sum_eq_zero
          intro z hz
          rcases List.mem_map.mp hz with ⟨y, _, hzy⟩
          exact hzy.symm
    rw [map_congr_mem hinner, sum_map_add, sum_map_ite_eq_one hknd hka,
      sum_map_ite_eq_one hknd hkb]
  · intro hcmp r hr hcp
    rw [hrel] at hr
    rcases List.mem_flatMap.mp hr with ⟨x, _, hr2⟩
    rcases List.mem_flatMap.mp hr2 with ⟨y, _, hr3⟩
    have hxy := mem_hierarchyEdge hr3
    have hcp2 := (connectsPair_eq_true_iff _ _ r).mp hcp
    have hcases : (x = pa.equipment_type_id ∧ y = pb.equipment_type_id)
        ∨ (x = pb.equipment_type_id ∧ y = pa.equipment_type_id) := by
      rcases hxy.2 with ⟨hp, hc⟩ | ⟨hp, hc⟩ <;>
        rcases hcp2 with ⟨hp2, hc2⟩ | ⟨hp2, hc2⟩ <;>
        first
          | exact Or.inl ⟨hp ▸ hp2, hc ▸ hc2⟩
          | exact Or.inr ⟨hp ▸ hp2, hc ▸ hc2⟩
          | exact Or.inr ⟨hc ▸ hc2, hp ▸ hp2⟩
          | exact Or.inl ⟨hc ▸ hc2, hp ▸ hp2⟩
    rcases hcases with ⟨hx, hy⟩ | ⟨hx, hy⟩
    · subst hx
      subst hy
      rw [hedge_ab] at hr3
      rcases List.mem_singleton.mp hr3 with rfl
      exact ⟨by simp [hcmp], by simp [hcmp]⟩
    · subst hx
      subst hy
      rw [hedge_ba] at hr3
      rcases List.mem_singleton.mp hr3 with rfl
      have hcmp2 : ¬ pb.facility_count > pa.facility_count := by omega
      exact ⟨by simp [hcmp2], by simp [hcmp2]⟩

/-- C3 witness: instantiates `hierarchy_pair_two_edges` at the concrete
two-profile input. -/
theorem hierarchy_pair_two_edges_witness :
    (([exPA, exPB].map (fun p => p.equipment_type_id)).Nodup) ∧
    ((build_hierarchy_tree [exPA, exPB]).parent_child_relationships.countP
        (connectsPair exPA.equipment_type_id exPB.equipment_type_id)) = 2 :=
  ⟨by decide,
    (hierarchy_pair_two_edges [exPA, exPB] (by decide) exPA exPB
      (List.mem_cons_self _ _) (List.mem_cons_of_mem _ (List.mem_cons_self _ _)) (by decide)
      (by rw [jaccard_of_cards
            (show (coreCommonUdcSet exPA ∩ coreCommonUdcSet exPB).card = 2 by decide)
            (show (coreCommonUdcSet exPA ∪ coreCommonUdcSet exPB).card = 3 by decide)
            (by decide)]
          norm_num)).1⟩

/-! ## Theorems for C6 -/

theorem mkMergedGroup_merged_from {udc_profiles : List UdcProfile}
    {ets : List EquipmentType} {dict : List (Nat × Finset String)}
    {a b : Nat} {mg : MergedGroup}
    (h : mkMergedGroup udc_profiles ets dict a b = some mg) :
    mg.merged_from = [a, b] := by
  unfold mkMergedGroup at h
  split at h
  · injection h with h2
    subst h2
    rfl
  · cases h

theorem consolidateScan_no_merge (udc_profiles : List UdcProfile)
    (ets : List EquipmentType) (eq_udc_sets : List (Nat × Finset String)) (thr : ℚ) :
    ∀ (l : List Nat) (merged : Finset Nat),
    (∀ x ∈ l, ∀ y ∈ l, x ≠ y →
      calculate_jaccard_similarity ((getAssoc? eq_udc_sets x).getD ∅)
        ((getAssoc? eq_udc_sets y).getD ∅) < thr) →
    l.Nodup →
    consolidateScan udc_profiles ets eq_udc_sets thr l merged = ([], merged) := by
  intro l
  induction l with
  | nil =>
    intro merged _ _
    rfl
  | cons a rest ih =>
    intro merged hlt hnd
    simp only [List.nodup_cons] at hnd
    have hltr : ∀ x ∈ rest, ∀ y ∈ rest, x ≠ y →
        calculate_jaccard_similarity ((getAssoc? eq_udc_sets x).getD ∅)
          ((getAssoc? eq_udc_sets y).getD ∅) < thr :=
      fun x hx y hy => hlt x (List.mem_cons_of_mem a hx) y (List.mem_cons_of_mem a hy)
    rw [consolidateScan]
    by_cases hm : a ∈ merged
    · rw [if_pos hm]
      exact ih merged hltr hnd.2
    · rw [if_neg hm]
      have hfind : findMergePartner eq_udc_sets merged thr
          ((getAssoc? eq_udc_sets a).getD ∅) rest = none := by
        unfold findMergePartner
        apply List.find?_eq_none.mpr
        intro b hb
        simp only [Bool.and_eq_true, decide_eq_true_eq, not_and]
        intro _
        have hab : a ≠ b := fun hc => hnd.1 (hc ▸ hb)
        exact not_le.mpr (hlt a (List.mem_cons_self a rest) b
          (List.mem_cons_of_mem a hb) hab)
      simp only [hfind]
      exact ih merged hltr hnd.2

theorem consolidateScan_pairwise (udc_profiles : List UdcProfile)
    (ets : List EquipmentType) (eq_udc_sets : List (Nat × Finset String)) (thr : ℚ) :
    ∀ (l : List Nat) (merged : Finset Nat), l.Nodup →
    (∀ g ∈ (consolidateScan udc_profiles ets eq_udc_sets thr l merged).1,
      ∃ x y, g.merged_from = [x, y] ∧ x ≠ y ∧ x ∈ l ∧ y ∈ l ∧ x ∉ merged ∧ y ∉ merged) ∧
    List.Pairwise (fun g h => ∀ z ∈ g.merged_from, z ∉ h.merged_from)
      (consolidateScan udc_profiles ets eq_udc_sets thr l merged).1 := by
  intro l
  induction l with
  | nil =>
    intro merged _
    exact ⟨fun g hg => absurd hg (List.not_mem_nil g), List.Pairwise.nil⟩
  | cons a rest ih =>
    intro merged hnd
    simp only [List.nodup_cons] at hnd
    rw [consolidateScan]
    by_cases hm : a ∈ merged
    · rw [if_pos hm]
      refine ⟨fun g hg => ?_, (ih merged hnd.2).2⟩
      obtain ⟨x, y, h1, h2, h3, h4, h5, h6⟩ := (ih merged hnd.2).1 g hg
      exact ⟨x, y, h1, h2, List.mem_cons_of_mem a h3, List.mem_cons_of_mem a h4, h5, h6⟩
    · rw [if_neg hm]
      cases hfind : findMergePartner eq_udc_sets merged thr
          ((getAssoc? eq_udc_sets a).getD ∅) rest with
      | none =>
        simp only [hfind]
        refine ⟨fun g hg => ?_, (ih merged hnd.2).2⟩
        obtain ⟨x, y, h1, h2, h3, h4, h5, h6⟩ := (ih merged hnd.2).1 g hg
        exact ⟨x, y, h1, h2, List.mem_cons_of_mem a h3, List.mem_cons_of_mem a h4, h5, h6⟩
      | some b =>
        have hbrest : b ∈ rest := List.mem_of_find?_eq_some hfind
        have hbm : b ∉ merged := by
          have hp := List.find?_some hfind
          simp only [Bool.and_eq_true, decide_eq_true_eq] at hp
          exact hp.1
        have hab : a ≠ b := fun hc => hnd.1 (hc ▸ hbrest)
        cases hmk : mkMergedGroup udc_profiles ets eq_udc_sets a b with
        | none =>
          simp only [hfind, hmk]
          refine ⟨fun g hg => ?_, (ih merged hnd.2).2⟩
          obtain ⟨x, y, h1, h2, h3, h4, h5, h6⟩ := (ih merged hnd.2).1 g hg
          exact ⟨x, y, h1, h2, List.mem_cons_of_mem a h3, List.mem_cons_of_mem a h4, h5, h6⟩
        | some mg =>
          simp only [hfind, hmk]
          have hmf := mkMergedGroup_merged_from hmk
          have ihr := ih (insert a (insert b merged)) hnd.2
          constructor
          · intro g hg
            rcases List.mem_cons.mp hg with hgh | hgt
            · subst hgh
              exact ⟨a, b, hmf, hab, List.mem_cons_self a rest,
                List.mem_cons_of_mem a hbrest, hm, hbm⟩
            · obtain ⟨x, y, h1, h2, h3, h4, h5, h6⟩ := ihr.1 g hgt
              refine ⟨x, y, h1, h2, List.mem_cons_of_mem a h3,
                List.mem_cons_of_mem a h4, fun hx => h5 ?_, fun hy => h6 ?_⟩
              · exact Finset.mem_insert_of_mem (Finset.mem_insert_of_mem hx)
              · exact Finset.mem_insert_of_mem (Finset.mem_insert_of_mem hy)
          · apply List.Pairwise.cons
            · intro g2 hg2 z hz hz2
              obtain ⟨x, y, h1, h2, h3, h4, h5, h6⟩ := ihr.1 g2 hg2
              rw [hmf] at hz
              rw [h1] at hz2
              rcases List.mem_cons.mp hz2 with hzx | hzy
              · subst hzx
                rcases List.mem_cons.mp hz with hza | hz3
                · exact h5 (by rw [hza]; exact Finset.mem_insert_self a _)
                · rcases List.mem_cons.mp hz3 with hzb | hz4
                  · exact h5 (by
                      rw [hzb]
                      exact Finset.mem_insert_of_mem (Finset.mem_insert_self b _))
                  · cases hz4
              · rcases List.mem_cons.mp hzy with hzy2 | hz5
                · subst hzy2
                  rcases List.mem_cons.mp hz with hza | hz3
                  · exact h6 (by rw [hza]; exact Finset.mem_insert_self a _)
                  · rcases List.mem_cons.mp hz3 with hzb | hz4
                    · exact h6 (by
                        rw [hzb]
                        exact Finset.mem_insert_of_mem (Finset.mem_insert_self b _))
                    · cases hz4
                · cases hz5
            · exact ihr.2

/-- C6: consolidation with the all-tier UDC sets: (i) when every distinct
pair of profiles has Jaccard similarity strictly below the threshold, zero
merges are produced; (ii) the merged pairs are always mutually disjoint (a
type merged once is excluded from further pairing in the same pass); (iii)
for two types whose all-tier sets meet the threshold exactly (`≥ 0.80` is
inclusive), a single merge of exactly that pair is produced. -/
theorem consolidation_spec :
    (∀ (udc_profiles : List UdcProfile) (ets : List EquipmentType) (thr : ℚ),
      (udc_profiles.map (·.equipment_type_id)).Nodup →
      (∀ p ∈ udc_profiles, ∀ q ∈ udc_profiles,
        p.equipment_type_id ≠ q.equipment_type_id →
        calculate_jaccard_similarity (allUdcSet p) (allUdcSet q) < thr) →
      (consolidate_groups udc_profiles ets thr).merged_groups = []) ∧
    (∀ (udc_profiles : List UdcProfile) (ets : List EquipmentType) (thr : ℚ),
      List.Pairwise (fun g h => ∀ z ∈ g.merged_from, z ∉ h.merged_from)
        (consolidate_groups udc_profiles ets thr).merged_groups) ∧
    (∀ (pa pb : UdcProfile) (ta tb : EquipmentType) (ets : List EquipmentType),
      pa.equipment_type_id ≠ pb.equipment_type_id →
      lookupType ets pa.equipment_type_id = some ta →
      lookupType ets pb.equipment_type_id = some tb →
      calculate_jaccard_similarity (allUdcSet pa) (allUdcSet pb) ≥ 0.80 →
      ((consolidate_groups [pa, pb] ets (0.80 : ℚ)).merged_groups.map
        (fun g => g.merged_from))
        = [[pa.equipment_type_id, pb.equipment_type_id]]) := by
  refine ⟨?_, ?_, ?_⟩
  · intro udc_profiles ets thr hnd hlt
    have hmg : (consolidate_groups udc_profiles ets thr).merged_groups
        = (consolidateScan udc_profiles ets (buildEqUdcSets allUdcSet udc_profiles) thr
            ((buildEqUdcSets allUdcSet udc_profiles).map Prod.fst) ∅).1 := rfl
    rw [hmg, consolidateScan_no_merge]
    · intro x hx y hy hxy
      rcases List.mem_map.mp ((mem_keys_buildEqUdcSets allUdcSet udc_profiles x).mp hx)
        with ⟨p, hp, hpx⟩
      rcases List.mem_map.mp ((mem_keys_buildEqUdcSets allUdcSet udc_profiles y).mp hy)
        with ⟨q, hq, hqy⟩
      have hgp := getAssoc?_buildEqUdcSets allUdcSet hp hnd
      have hgq := getAssoc?_buildEqUdcSets allUdcSet hq hnd
      rw [← hpx, ← hqy, hgp, hgq, Option.getD_some, Option.getD_some]
      exact hlt p hp q hq (fun hc => hxy (by rw [← hpx, ← hqy, hc]))
    · exact keys_buildEqUdcSets_nodup allUdcSet udc_profiles
  · intro udc_profiles ets thr
    exact (consolidateScan_pairwise udc_profiles ets
      (buildEqUdcSets allUdcSet udc_profiles) thr
      ((buildEqUdcSets allUdcSet udc_profiles).map Prod.fst) ∅
      (keys_buildEqUdcSets_nodup allUdcSet udc_profiles)).2
  · intro pa pb ta tb ets hne hta htb hsim
    have hdict : buildEqUdcSets allUdcSet [pa, pb]
        = [(pa.equipment_type_id, allUdcSet pa), (pb.equipment_type_id, allUdcSet pb)] := by
      simp [buildEqUdcSets, setAssoc, hne]
    have hga : getAssoc? [(pa.equipment_type_id, allUdcSet pa),
        (pb.equipment_type_id, allUdcSet pb)] pa.equipment_type_id
        = some (allUdcSet pa) := by
      rw [getAssoc?_cons, if_pos rfl]
    have hgb : getAssoc? [(pa.equipment_type_id, allUdcSet pa),
        (pb.equipment_type_id, allUdcSet pb)] pb.equipment_type_id
        = some (allUdcSet pb) := by
      rw [getAssoc?_cons, if_neg hne, getAssoc?_cons, if_pos rfl]
    have hfind : findMergePartner [(pa.equipment_type_id, allUdcSet pa),
        (pb.equipment_type_id, allUdcSet pb)] ∅ (0.80 : ℚ) (allUdcSet pa)
        [pb.equipment_type_id] = some pb.equipment_type_id := by
      unfold findMergePartner
      apply List.find?_cons_of_pos
      simp only [hgb, Option.getD_some, Bool.and_eq_true, decide_eq_true_eq]
      exact ⟨Finset.not_mem_empty _, hsim⟩
    have hlpa : lookupProfile [pa, pb] pa.equipment_type_id = some pa := by
      simp [lookupProfile, List.find?]
    have hlpb : lookupProfile [pa, pb] pb.equipment_type_id = some pb := by
      simp [lookupProfile, List.find?, hne]
    have hmk : mkMergedGroup [pa, pb] ets [(pa.equipment_type_id, allUdcSet pa),
        (pb.equipment_type_id, allUdcSet pb)] pa.equipment_type_id pb.equipment_type_id
        = some { new_group_id := pa.equipment_type_id
                 new_group_name := ta.suggested_name ++ " + " ++ tb.suggested_name
                 merged_from := [pa.equipment_type_id, pb.equipment_type_id]
                 total_facilities := pa.facility_count + pb.facility_count
                 combined_udcs := (allUdcSet pa ∪ allUdcSet pb).card } := by
      simp only [mkMergedGroup, hlpa, hlpb, hta, htb, hga, hgb, Option.getD_some]
    have hskip : consolidateScan [pa, pb] ets [(pa.equipment_type_id, allUdcSet pa),
        (pb.equipment_type_id, allUdcSet pb)] (0.80 : ℚ) [pb.equipment_type_id]
        (insert pa.equipment_type_id (insert pb.equipment_type_id ∅))
        = ([], insert pa.equipment_type_id (insert pb.equipment_type_id ∅)) := by
      rw [consolidateScan, if_pos (by simp)]
      rfl
    have hscan : consolidateScan [pa, pb] ets [(pa.equipment_type_id, allUdcSet pa),
        (pb.equipment_type_id, allUdcSet pb)] (0.80 : ℚ)
        [pa.equipment_type_id, pb.equipment_type_id] ∅
        = ([{ new_group_id := pa.equipment_type_id
              new_group_name := ta.suggested_name ++ " + " ++ tb.suggested_name
              merged_from := [pa.equipment_type_id, pb.equipment_type_id]
              total_facilities := pa.facility_count + pb.facility_count
              combined_udcs := (allUdcSet pa ∪ allUdcSet pb).card }],
           insert pa.equipment_type_id (insert pb.equipment_type_id ∅)) := by
      rw [consolidateScan, if_neg (Finset.not_mem_empty _)]
      simp only [hga, Option.getD_some, hfind, hmk, hskip]
    have hmg : (consolidate_groups [pa, pb] ets (0.80 : ℚ)).merged_groups
        = (consolidateScan [pa, pb] ets (buildEqUdcSets allUdcSet [pa, pb]) (0.80 : ℚ)
            ((buildEqUdcSets allUdcSet [pa, pb]).map Prod.fst) ∅).1 := rfl
    rw [hmg, hdict]
    simp only [List.map_cons, List.map_nil]
    rw [hscan]
    rfl

/-- C6 witness: instantiates the inclusive-threshold conjunct of
`consolidation_spec` at two profiles overlapping at exactly `0.80`. -/
theorem consolidation_spec_witness :
    exQA.equipment_type_id ≠ exQB.equipment_type_id ∧
    calculate_jaccard_similarity (allUdcSet exQA) (allUdcSet exQB) ≥ 0.80 ∧
    ((consolidate_groups [exQA, exQB] [exTA, exTB] (0.80 : ℚ)).merged_groups.map
      (fun g => g.merged_from))
      = [[exQA.equipment_type_id, exQB.equipment_type_id]] := by
  have hsim : calculate_jaccard_similarity (allUdcSet exQA) (allUdcSet exQB)
      ≥ 0.80 := by
    rw [jaccard_of_cards
      (show (allUdcSet exQA ∩ allUdcSet exQB).card = 4 by decide)
      (show (allUdcSet exQA ∪ allUdcSet exQB).card = 5 by decide)
      (by decide)]
    norm_num
  exact ⟨by decide, hsim,
    consolidation_spec.2.2 exQA exQB exTA exTB [exTA, exTB] (by decide)
      rfl rfl hsim⟩

/-! ## Theorems for C10 -/

theorem mem_validate {merged_df : List JoinRow} {equipment_types : List EquipmentType}
    {output_detail : String} {p : UdcProfile}
    (hp : p ∈ validate_equipment_with_udcs merged_df equipment_types output_detail) :
    ∃ t ∈ equipment_types, t.facility_ids ≠ [] ∧
      p.equipment_type_id = t.equipment_type_id := by
  rcases List.mem_flatMap.mp hp with ⟨t, ht, hmem⟩
  by_cases hids : t.facility_ids = []
  · simp only [validate_equipment_with_udcs, if_pos hids] at hmem
    cases hmem
  · refine ⟨t, ht, hids, ?_⟩
    simp only [validate_equipment_with_udcs, if_neg hids] at hmem
    split at hmem <;> (rcases List.mem_singleton.mp hmem with rfl; rfl)

theorem hierarchy_rel_ids {udc_profiles : List UdcProfile} {r : HierarchyRelationship}
    (hr : r ∈ (build_hierarchy_tree udc_profiles).parent_child_relationships) :
    r.parent_id ∈ udc_profiles.map (·.equipment_type_id) ∧
    r.child_id ∈ udc_profiles.map (·.equipment_type_id) := by
  have hrel : (build_hierarchy_tree udc_profiles).parent_child_relationships
      = ((buildEqUdcSets coreCommonUdcSet udc_profiles).map Prod.fst).flatMap
          (fun x => ((buildEqUdcSets coreCommonUdcSet udc_profiles).map Prod.fst).flatMap
            (fun y => hierarchyEdge udc_profiles
              (buildEqUdcSets coreCommonUdcSet udc_profiles) x y)) := rfl
  rw [hrel] at hr
  rcases List.mem_flatMap.mp hr with ⟨x, hx, hr2⟩
  rcases List.mem_flatMap.mp hr2 with ⟨y, hy, hr3⟩
  have hx2 := (mem_keys_buildEqUdcSets coreCommonUdcSet udc_profiles x).mp hx
  have hy2 := (mem_keys_buildEqUdcSets coreCommonUdcSet udc_profiles y).mp hy
  rcases (mem_hierarchyEdge hr3).2 with ⟨hp, hc⟩ | ⟨hp, hc⟩
  · rw [hp, hc]
    exact ⟨hx2, hy2⟩
  · rw [hp, hc]
    exact ⟨hy2, hx2⟩

theorem hierarchy_root_ids {udc_profiles : List UdcProfile} {i : Nat}
    (hi : i ∈ (build_hierarchy_tree udc_profiles).root_nodes) :
    i ∈ udc_profiles.map (·.equipment_type_id) := by
  have hroot : (build_hierarchy_tree udc_profiles).root_nodes.Sublist
      ((buildEqUdcSets coreCommonUdcSet udc_profiles).map Prod.fst) :=
    List.filter_sublist _
  exact (mem_keys_buildEqUdcSets coreCommonUdcSet udc_profiles i).mp (hroot.mem hi)

theorem hierarchy_isolated_ids {udc_profiles : List UdcProfile} {i : Nat}
    (hi : i ∈ (build_hierarchy_tree udc_profiles).isolated_nodes) :
    i ∈ udc_profiles.map (·.equipment_type_id) := by
  have hiso : (build_hierarchy_tree udc_profiles).isolated_nodes.Sublist
      ((buildEqUdcSets coreCommonUdcSet udc_profiles).map Prod.fst) :=
    List.filter_sublist _
  exact (mem_keys_buildEqUdcSets coreCommonUdcSet udc_profiles i).mp (hiso.mem hi)

theorem consolidation_merged_ids {udc_profiles : List UdcProfile}
    {ets : List EquipmentType} {thr : ℚ} {g : MergedGroup}
    (hg : g ∈ (consolidate_groups udc_profiles ets thr).merged_groups)
    {z : Nat} (hz : z ∈ g.merged_from) :
    z ∈ udc_profiles.map (·.equipment_type_id) := by
  obtain ⟨x, y, h1, _, h3, h4, _, _⟩ :=
    (consolidateScan_pairwise udc_profiles ets (buildEqUdcSets allUdcSet udc_profiles) thr
      ((buildEqUdcSets allUdcSet udc_profiles).map Prod.fst) ∅
      (keys_buildEqUdcSets_nodup allUdcSet udc_profiles)).1 g hg
  rw [h1] at hz
  rcases List.mem_cons.mp hz with rfl | hz2
  · exact (mem_keys_buildEqUdcSets allUdcSet udc_profiles z).mp h3
  · rcases List.mem_cons.mp hz2 with rfl | hz3
    · exact (mem_keys_buildEqUdcSets allUdcSet udc_profiles z).mp h4
    · cases hz3

theorem consolidation_unchanged_ids {udc_profiles : List UdcProfile}
    {ets : List EquipmentType} {thr : ℚ} {i : Nat}
    (hi : i ∈ (consolidate_groups udc_profiles ets thr).unchanged_groups) :
    i ∈ udc_profiles.map (·.equipment_type_id) := by
  have hsub : (consolidate_groups udc_profiles ets thr).unchanged_groups.Sublist
      ((buildEqUdcSets allUdcSet udc_profiles).map Prod.fst) :=
    List.filter_sublist _
  exact (mem_keys_buildEqUdcSets allUdcSet udc_profiles i).mp (hsub.mem hi)

/-- C10: an EquipmentType whose member facility-id list is empty is silently
dropped by Phase 3 - no UDCCoverageProfile is emitted for its id, and the id
appears nowhere in the hierarchy (relationships, roots, isolated nodes), the
consolidation scan (merged or unchanged groups), or the confidence buckets. -/
theorem empty_facility_type_dropped (merged_df : List JoinRow)
    (equipment_types : List EquipmentType) (output_detail : String) (thr : ℚ)
    (t : EquipmentType) (_ht : t ∈ equipment_types)
    (hempty : ∀ t2 ∈ equipment_types,
      t2.equipment_type_id = t.equipment_type_id → t2.facility_ids = []) :
    (t.equipment_type_id ∉
      (validate_equipment_with_udcs merged_df equipment_types output_detail).map
        (·.equipment_type_id)) ∧
    (∀ r ∈ (build_hierarchy_tree
        (validate_equipment_with_udcs merged_df equipment_types
          output_detail)).parent_child_relationships,
      r.parent_id ≠ t.equipment_type_id ∧ r.child_id ≠ t.equipment_type_id) ∧
    t.equipment_type_id ∉ (build_hierarchy_tree
      (validate_equipment_with_udcs merged_df equipment_types output_detail)).root_nodes ∧
    t.equipment_type_id ∉ (build_hierarchy_tree
      (validate_equipment_with_udcs merged_df equipment_types output_detail)).isolated_nodes ∧
    (∀ g ∈ (consolidate_groups
        (validate_equipment_with_udcs merged_df equipment_types output_detail)
        equipment_types thr).merged_groups,
      t.equipment_type_id ∉ g.merged_from) ∧
    t.equipment_type_id ∉ (consolidate_groups
      (validate_equipment_with_udcs merged_df equipment_types output_detail)
      equipment_types thr).unchanged_groups ∧
    (∀ level : String, ∀ p ∈ confidenceBucket
        (validate_equipment_with_udcs merged_df equipment_types output_detail)
        equipment_types level,
      p.equipment_type_id ≠ t.equipment_type_id) := by
  have hnotin : t.equipment_type_id ∉
      (validate_equipment_with_udcs merged_df equipment_types output_detail).map
        (·.equipment_type_id) := by
    intro hmem
    rcases List.mem_map.mp hmem with ⟨p, hp, hid⟩
    obtain ⟨t2, ht2, hne2, hid2⟩ := mem_validate hp
    exact hne2 (hempty t2 ht2 (hid2.symm.trans hid))
  refine ⟨hnotin, ?_, ?_, ?_, ?_, ?_, ?_⟩
  · intro r hr
    have h2 := hierarchy_rel_ids hr
    exact ⟨fun hc => hnotin (hc ▸ h2.1), fun hc => hnotin (hc ▸ h2.2)⟩
  · exact fun hc => hnotin (hierarchy_root_ids hc)
  · exact fun hc => hnotin (hierarchy_isolated_ids hc)
  · intro g hg hz
    exact hnotin (consolidation_merged_ids hg hz)
  · exact fun hc => hnotin (consolidation_unchanged_ids hc)
  · intro level p hp hc
    have hp2 : p ∈ validate_equipment_with_udcs merged_df equipment_types output_detail :=
      List.mem_of_mem_filter hp
    exact hnotin (hc ▸ List.mem_map_of_mem (·.equipment_type_id) hp2)

/-- C10 witness: instantiates `empty_facility_type_dropped` at a one-type
list whose only type has no member facilities. -/
theorem empty_facility_type_dropped_witness :
    exTEmpty ∈ [exTEmpty] ∧
    (∀ t2 ∈ [exTEmpty],
      t2.equipment_type_id = exTEmpty.equipment_type_id → t2.facility_ids = []) ∧
    exTEmpty.equipment_type_id ∉
      (validate_equipment_with_udcs [] [exTEmpty] "summary").map (·.equipment_type_id) :=
  ⟨List.mem_singleton.mpr rfl,
    fun t2 ht2 _ => by
      rcases List.mem_singleton.mp ht2 with rfl
      rfl,
    (empty_facility_type_dropped [] [exTEmpty] "summary" (4/5) exTEmpty
      (List.mem_singleton.mpr rfl)
      (fun t2 ht2 _ => by
        rcases List.mem_singleton.mp ht2 with rfl
        rfl)).1⟩

/-! ## Permutation lemmas for the stable sorts and the signature grouping -/

theorem insertDescBy_perm {α β : Type} [LinearOrder β] (key : α → β) (x : α) (l : List α) :
    (insertDescBy key x l).Perm (x :: l) := by
  induction l with
  | nil => exact List.Perm.refl _
  | cons y ys ih =>
    simp only [insertDescBy]
    by_cases h : key x < key y
    · rw [if_pos h]
      exact (ih.cons y).trans (List.Perm.swap x y ys)
    · rw [if_neg h]

theorem sortDescBy_perm {α β : Type} [LinearOrder β] (key : α → β) (l : List α) :
    (sortDescBy key l).Perm l := by
  induction l with
  | nil => exact List.Perm.refl _
  | cons x xs ih =>
    simp only [sortDescBy, List.foldr_cons]
    exact (insertDescBy_perm key x _).trans (ih.cons x)

theorem insertAscStr_perm (x : String) (l : List String) :
    (insertAscStr x l).Perm (x :: l) := by
  induction l with
  | nil => exact List.Perm.refl _
  | cons y ys ih =>
    simp only [insertAscStr]
    by_cases h : x ≤ y
    · rw [if_pos h]
    · rw [if_neg h]
      exact (ih.cons y).trans (List.Perm.swap x y ys)

theorem sortAscStr_perm (l : List String) : (sortAscStr l).Perm l := by
  induction l with
  | nil => exact List.Perm.refl _
  | cons x xs ih =>
    simp only [sortAscStr, List.foldr_cons]
    exact (insertAscStr_perm x _).trans (ih.cons x)

theorem flatMap_updateAssoc_append {κ : Type} [DecidableEq κ]
    (acc : List (κ × List Nat)) (k : κ) (i : Nat) :
    ((updateAssoc acc k (fun l => l ++ [i]) []).flatMap Prod.snd).Perm
      ((acc.flatMap Prod.snd) ++ [i]) := by
  induction acc with
  | nil =>
    simp only [updateAssoc, List.flatMap_cons, List.flatMap_nil, List.append_nil,
      List.nil_append]
    exact List.Perm.refl _
  | cons hd tl ih =>
    obtain ⟨k2, v⟩ := hd
    simp only [updateAssoc]
    by_cases h : k2 = k
    · rw [if_pos h]
      show ((v ++ [i]) ++ tl.flatMap Prod.snd).Perm ((v ++ tl.flatMap Prod.snd) ++ [i])
      rw [List.append_assoc v [i] (tl.flatMap Prod.snd),
        List.append_assoc v (tl.flatMap Prod.snd) [i]]
      exact List.Perm.append_left v List.perm_append_comm
    · rw [if_neg h]
      show (v ++ (updateAssoc tl k (fun l => l ++ [i]) []).flatMap Prod.snd).Perm
        ((v ++ tl.flatMap Prod.snd) ++ [i])
      rw [List.append_assoc v (tl.flatMap Prod.snd) [i]]
      exact List.Perm.append_left v ih

theorem flatMap_groupFold {κ : Type} [DecidableEq κ] (sigs : List (κ × Nat)) :
    ∀ acc : List (κ × List Nat),
      ((sigs.foldl (fun acc p => updateAssoc acc p.1 (fun l => l ++ [p.2]) []) acc).flatMap
        Prod.snd).Perm ((acc.flatMap Prod.snd) ++ sigs.map Prod.snd) := by
  induction sigs with
  | nil =>
    intro acc
    simp only [List.foldl_nil, List.map_nil, List.append_nil]
    exact List.Perm.refl _
  | cons p rest ih =>
    intro acc
    simp only [List.foldl_cons, List.map_cons]
    refine (ih (updateAssoc acc p.1 (fun l => l ++ [p.2]) [])).trans ?_
    refine ((flatMap_updateAssoc_append acc p.1 p.2).append_right (rest.map Prod.snd)).trans ?_
    rw [List.append_assoc]
    exact List.Perm.refl _

theorem flatMap_map_eq {α β : Type} (f : α → β) (g : β → List Nat) (h : α → List Nat)
    (hfg : ∀ a, g (f a) = h a) (l : List α) :
    (l.map f).flatMap g = l.flatMap h := by
  induction l with
  | nil => rfl
  | cons x xs ih =>
    simp only [List.map_cons, List.flatMap_cons, hfg x, ih]

/-! ## C5: noise-term stability -/

/-- C5: counterexample.  Over `exTableC5` the token `pump` appears in 100% of
the facilities, yet because the `desc` column is constant over the single
group the constant-column deduplication gives it a group-weighted global
count of 1, it is NOT classified as a noise term, and it heads the group's
top-keyword list. -/
theorem noise_term_counterexample :
    tokenAppearsInAllFacilities exTableC5
      (buildAnalysisColumns (keyAttrNames ["desc"]) exTableC5) "pump" ∧
    "pump" ∉ (extract_group_keywords exTableC5 [exGroupC5] ["desc"]).noise_terms_filtered ∧
    ((extract_group_keywords exTableC5 [exGroupC5] ["desc"]).groups.map
      (fun g => g.top_keywords.map (fun p => p.1))) = [["pump", "station"]] := by
  have hcols : buildAnalysisColumns (keyAttrNames ["desc"]) exTableC5 = ["desc", "id"] := by
    decide
  have hglobal : globalKeywordCounts exTableC5 [exGroupC5] ["desc", "id"]
      = [("pump", 1), ("station", 1)] := by decide
  have hnoise : noiseTerms exTableC5.rows.length [("pump", 1), ("station", 1)] = [] := by
    show noiseTerms 4 [("pump", 1), ("station", 1)] = []
    norm_num [noiseTerms, List.filter_cons, List.filter_nil]
  have hext : extract_group_keywords exTableC5 [exGroupC5] ["desc"]
      = { groups := [groupKeywordsData exTableC5 ["desc", "id"] [] exGroupC5]
          columns_analyzed := ["desc", "id"]
          noise_terms_filtered := []
          noise_threshold := 0.75 } := by
    simp only [extract_group_keywords]
    rw [hcols, hglobal, hnoise]
    rfl
  refine ⟨?_, ?_, ?_⟩
  · unfold tokenAppearsInAllFacilities
    decide
  · rw [hext]
    exact List.not_mem_nil _
  · rw [hext]
    simp only [List.map_cons, List.map_nil]
    have hkw : tokenize_and_count (allTextForGroup exTableC5 ["desc", "id"]
        (exGroupC5.facilities.map (fun f => f.id))) = [("pump", 1), ("station", 1)] := by
      decide
    simp only [groupKeywordsData]
    rw [hkw]
    have hfilter : List.filter (fun p => decide (p.1 ∉ ([] : List String)))
        [("pump", (1 : Nat)), ("station", 1)] = [("pump", 1), ("station", 1)] := by decide
    rw [hfilter]
    have hsort : sortDescBy (fun p : String × Nat => p.2) [("pump", 1), ("station", 1)]
        = [("pump", 1), ("station", 1)] := by decide
    rw [hsort]
    rfl

/-- C5 (amended): the noise guarantee is group-weighted.  Any token whose
global group-weighted count (a column constant within a group contributes its
value once for the whole group) strictly exceeds 75% of the facility count is
classified as a noise term and excluded from every group's top-keyword list.
A token appearing in 100% of facilities need not reach that count when a
constant column is deduplicated. -/
theorem noise_terms_excluded (fac_df : FacTable) (assumed_groups : List FacilityGroup)
    (key_attribute_columns : List String) (w : String) (c : Nat)
    (hc : (w, c) ∈ globalKeywordCounts fac_df assumed_groups
        (buildAnalysisColumns (keyAttrNames key_attribute_columns) fac_df))
    (hgt : (c : ℚ) > (fac_df.rows.length : ℚ) * 0.75) :
    w ∈ (extract_group_keywords fac_df assumed_groups
        key_attribute_columns).noise_terms_filtered ∧
    ∀ g ∈ (extract_group_keywords fac_df assumed_groups key_attribute_columns).groups,
      ∀ p ∈ g.top_keywords, p.1 ≠ w := by
  have hwn : w ∈ noiseTerms fac_df.rows.length
      (globalKeywordCounts fac_df assumed_groups
        (buildAnalysisColumns (keyAttrNames key_attribute_columns) fac_df)) := by
    unfold noiseTerms
    refine List.mem_map.mpr ⟨(w, c), List.mem_filter.mpr ⟨hc, ?_⟩, rfl⟩
    simpa using hgt
  constructor
  · have hfield : (extract_group_keywords fac_df assumed_groups
        key_attribute_columns).noise_terms_filtered
        = sortAscStr (noiseTerms fac_df.rows.length
            (globalKeywordCounts fac_df assumed_groups
              (buildAnalysisColumns (keyAttrNames key_attribute_columns) fac_df))) := rfl
    rw [hfield]
    exact ((sortAscStr_perm _).mem_iff).mpr hwn
  · intro g hg p hp hpw
    have hgroups : (extract_group_keywords fac_df assumed_groups
        key_attribute_columns).groups
        = assumed_groups.map (groupKeywordsData fac_df
            (buildAnalysisColumns (keyAttrNames key_attribute_columns) fac_df)
            (noiseTerms fac_df.rows.length
              (globalKeywordCounts fac_df assumed_groups
                (buildAnalysisColumns (keyAttrNames key_attribute_columns) fac_df)))) := rfl
    rw [hgroups] at hg
    rcases List.mem_map.mp hg with ⟨group, _, hgeq⟩
    subst hgeq
    simp only [groupKeywordsData] at hp
    rcases List.mem_map.mp hp with ⟨q, hq, hqp⟩
    have hq1w : q.1 = w := by
      rw [← hqp] at hpw
      exact hpw
    have hq3 := (sortDescBy_perm _ _).mem_iff.mp (List.mem_of_mem_take hq)
    have hq4 := (List.mem_filter.mp hq3).2
    rw [decide_eq_true_eq] at hq4
    exact hq4 (by rw [hq1w]; exact hwn)

/-- C5 witness: over `exTableC5W` (four distinct descriptions all containing
`pump`) the group-weighted count of `pump` is 4 > 3, so
`noise_terms_excluded` applies and bars `pump` from every keyword list. -/
theorem noise_terms_excluded_witness :
    ("pump", 4) ∈ globalKeywordCounts exTableC5W [exGroupC5W]
      (buildAnalysisColumns (keyAttrNames ["desc"]) exTableC5W) ∧
    ((4 : Nat) : ℚ) > (exTableC5W.rows.length : ℚ) * 0.75 ∧
    ("pump" ∈ (extract_group_keywords exTableC5W [exGroupC5W]
        ["desc"]).noise_terms_filtered ∧
      ∀ g ∈ (extract_group_keywords exTableC5W [exGroupC5W] ["desc"]).groups,
        ∀ p ∈ g.top_keywords, p.1 ≠ "pump") := by
  have h1 : ("pump", 4) ∈ globalKeywordCounts exTableC5W [exGroupC5W]
      (buildAnalysisColumns (keyAttrNames ["desc"]) exTableC5W) := by decide
  have h2 : ((4 : Nat) : ℚ) > (exTableC5W.rows.length : ℚ) * 0.75 := by
    have h : exTableC5W.rows.length = 4 := rfl
    rw [h]
    norm_num
  exact ⟨h1, h2, noise_terms_excluded exTableC5W [exGroupC5W] ["desc"] "pump" 4 h1 h2⟩

/-! ## C1: Phase-1 partitioning -/

theorem flatMap_groups_enumFrom (pats : List SignaturePattern) :
    ∀ n : Nat,
      (((List.enumFrom n pats).map (fun p =>
        { group_id := p.1 + 1
          facility_count := p.2.facility_count
          percent_of_total := p.2.percent_of_total
          key_filled_attributes := p.2.filled_columns.take 10
          attribute_count := p.2.column_fill_count
          facilities := p.2.facilities
          member_indices := p.2.member_indices : Phase1Group })).flatMap
        (fun g => g.member_indices))
      = pats.flatMap (fun q => q.member_indices) := by
  induction pats with
  | nil =>
    intro n
    rfl
  | cons q qs ih =>
    intro n
    simp only [List.enumFrom_cons, List.map_cons, List.flatMap_cons]
    rw [ih (n + 1)]

/-- The flattened signature buckets are a permutation of the row indices. -/
theorem signatureGroups_flatMap_perm (fac_df : FacTable) (cols : List String) :
    ((signatureGroups fac_df cols).flatMap Prod.snd).Perm
      (List.range fac_df.rows.length) := by
  have h := flatMap_groupFold (signatureList fac_df cols) []
  simp only [List.flatMap_nil, List.nil_append] at h
  have h2 : (signatureList fac_df cols).map Prod.snd = List.range fac_df.rows.length := by
    show (fac_df.rows.enum.map (fun p => (signaturePresenceRow cols p.2, p.1))).map
      Prod.snd = List.range fac_df.rows.length
    rw [List.map_map]
    have h3 : fac_df.rows.enum.map
        (Prod.snd ∘ fun p => (signaturePresenceRow cols p.2, p.1))
        = fac_df.rows.enum.map Prod.fst := map_congr_mem (fun _ _ => rfl)
    rw [h3, List.enum_map_fst]
  rw [h2] at h
  exact h

/-- C1: counterexample.  Over the 51-signature table `exCapTable` the `[:50]`
cap of `_discover_attribute_signatures` drops one signature bucket: 51
distinct signatures are counted, but only 50 groups survive and the union of
the group member lists misses a row, so the groups do not partition the
facility set. -/
theorem clustering_cap_counterexample :
    (discover_attribute_signatures exCapTable exSigCols).total_unique_signatures = 51 ∧
    (facilityClusters exCapTable exSigCols).length = 50 ∧
    ¬ ((facilityClusters exCapTable exSigCols).flatMap (fun g => g.member_indices)).Perm
      (List.range exCapTable.rows.length) := by
  refine ⟨by decide, by decide, fun hperm => ?_⟩
  have hlen := hperm.length_eq
  rw [List.length_range] at hlen
  have h50 : ((facilityClusters exCapTable exSigCols).flatMap
      (fun g => g.member_indices)).length = 50 := by decide
  rw [h50] at hlen
  exact absurd hlen (by decide)

/-- C1 (amended): when at most 50 distinct presence signatures occur, Phase-1
clustering partitions the facility set - the concatenated member lists of the
groups are a permutation of the row indices (each facility exactly once) and
every signature bucket yields a group.  With more than 50 signatures the
`[:50]` cap of `_discover_attribute_signatures` drops the excess buckets. -/
theorem clustering_partition (fac_df : FacTable) (key_attr_columns : List String)
    (h50 : (discover_attribute_signatures fac_df key_attr_columns).total_unique_signatures
      ≤ 50) :
    ((facilityClusters fac_df key_attr_columns).flatMap (fun g => g.member_indices)).Perm
      (List.range fac_df.rows.length) ∧
    (facilityClusters fac_df key_attr_columns).length
      = (discover_attribute_signatures fac_df key_attr_columns).total_unique_signatures := by
  have hfocus : (discover_attribute_signatures fac_df
      key_attr_columns).total_unique_signatures
      = (signatureGroups fac_df
          (key_attr_columns.take (min 20 key_attr_columns.length))).length := rfl
  have hgone : (facilityClusters fac_df key_attr_columns).flatMap
      (fun g => g.member_indices)
      = (discover_attribute_signatures fac_df key_attr_columns).top_patterns.flatMap
          (fun q => q.member_indices) := by
    simp only [facilityClusters, group_by_signatures]
    exact flatMap_groups_enumFrom _ 0
  have htwo : (discover_attribute_signatures fac_df key_attr_columns).top_patterns
      = ((sortDescBy (fun g => g.2.length)
          (signatureGroups fac_df
            (key_attr_columns.take (min 20 key_attr_columns.length)))).take 50).map
          (patternOfGroup fac_df
            (key_attr_columns.take (min 20 key_attr_columns.length))) := rfl
  have hlen50 : (sortDescBy (fun g => g.2.length)
      (signatureGroups fac_df
        (key_attr_columns.take (min 20 key_attr_columns.length)))).length ≤ 50 := by
    rw [(sortDescBy_perm _ _).length_eq, ← hfocus]
    exact h50
  have htake : (sortDescBy (fun g => g.2.length)
      (signatureGroups fac_df
        (key_attr_columns.take (min 20 key_attr_columns.length)))).take 50
      = sortDescBy (fun g => g.2.length)
          (signatureGroups fac_df
            (key_attr_columns.take (min 20 key_attr_columns.length))) :=
    List.take_of_length_le hlen50
  constructor
  · rw [hgone, htwo, htake,
      flatMap_map_eq
        (patternOfGroup fac_df (key_attr_columns.take (min 20 key_attr_columns.length)))
        (fun q => q.member_indices) Prod.snd (fun _ => rfl)]
    exact ((sortDescBy_perm _ _).flatMap_right Prod.snd).trans
      (signatureGroups_flatMap_perm fac_df _)
  · have hclen : (facilityClusters fac_df key_attr_columns).length
        = (discover_attribute_signatures fac_df key_attr_columns).top_patterns.length := by
      simp only [facilityClusters, group_by_signatures]
      rw [List.length_map]
      exact List.enum_length
    rw [hclen, htwo, List.length_map, htake, (sortDescBy_perm _ _).length_eq, hfocus]

/-- C1 witness: instantiates `clustering_partition` on the 4-row table
`exTableC5`, which has a single presence signature. -/
theorem clustering_partition_witness :
    (discover_attribute_signatures exTableC5 ["desc"]).total_unique_signatures ≤ 50 ∧
    (((facilityClusters exTableC5 ["desc"]).flatMap (fun g => g.member_indices)).Perm
      (List.range exTableC5.rows.length) ∧
    (facilityClusters exTableC5 ["desc"]).length
      = (discover_attribute_signatures exTableC5 ["desc"]).total_unique_signatures) :=
  ⟨by decide, clustering_partition exTableC5 ["desc"] (by decide)⟩

end CygToIgn
